import Mathlib

/-!
# Verification of the wordpress-sync orchestration core

A shallow embedding of the synchronization pipeline of
`cli/wordpress_sync.py` and its resource managers
(`cli/resources/database_manager.py`, `cli/resources/ssh_manager.py`,
`cli/resources/maintenance_manager.py`, `cli/resources/plugin_manager.py`,
`cli/resources/validation_manager.py`, `resources/url_manager.py`,
`resources/password_manager.py`, `resources/command_collector.py`).

External commands are represented symbolically by the inductive `Cmd`:
each constructor corresponds to one command string built in the source.
The pipeline `run_synchronization` is modelled as a pure function from the
parsed arguments, the loaded configuration, and an oracle of external
outcomes (command results, prompt answers, timestamps) to the list of
commands actually executed, the list of pipeline steps invoked, the
collected command plan, and the count of maintenance-deactivation calls.
Exception injection at a pipeline step is modelled by an optional `Step`
argument: the injected step raises upon being invoked.
-/

namespace WpSync

/-! ## String and POSIX path primitives (`os.path`)

String scanning is implemented over `List Char` so that every function
reduces inside the kernel (`String.startsWith`, `String.splitOn` and
friends use byte positions and do not). -/

/-- Python `str.startswith`. -/
def strStartsWith (s pre : String) : Bool := pre.toList.isPrefixOf s.toList

/-- Python `str.endswith`. -/
def strEndsWith (s suf : String) : Bool := suf.toList.isSuffixOf s.toList

/-- Python `s[n:]` for a character count. -/
def strDrop (s : String) (n : Nat) : String := String.mk (s.toList.drop n)

/-- `os.path.isabs` for POSIX paths. -/
def isAbs (p : String) : Bool := strStartsWith p "/"

/-- Python `str.rstrip('/')`. -/
def rstripSlash (p : String) : String :=
  String.mk ((p.toList.reverse.dropWhile (fun c => c = '/')).reverse)

/-- `os.path.join` restricted to two components (POSIX). -/
def pathJoin (a b : String) : String :=
  if isAbs b then b
  else if a = "" then b
  else if strEndsWith a "/" then a ++ b
  else a ++ "/" ++ b

/-- `os.path.dirname` (POSIX): the part before the final slash; a head made
only of slashes is kept as-is, otherwise its trailing slashes are removed. -/
def dirname (p : String) : String :=
  let head := (p.toList.reverse.dropWhile (fun c => c ≠ '/')).reverse
  if head.isEmpty then ""
  else if head.all (fun c => c = '/') then String.mk head
  else rstripSlash (String.mk head)

/-- Split a character list on a separator character (Python `str.split(sep)`). -/
def splitOnChar (sep : Char) (cs : List Char) : List (List Char) :=
  cs.foldr
    (fun c acc =>
      match acc with
      | [] => [[c]]
      | g :: gs => if c = sep then [] :: g :: gs else (c :: g) :: gs)
    [[]]

/-- Join character lists with a separator character (Python `sep.join`). -/
def joinWithChar (sep : Char) : List (List Char) → List Char
  | [] => []
  | [x] => x
  | x :: y :: xs => x ++ sep :: joinWithChar sep (y :: xs)

/-- `os.path.normpath` (POSIX), following CPython's algorithm. -/
def normpath (p : String) : String :=
  if p = "" then "."
  else
    let initSlashes : Nat :=
      if strStartsWith p "/" then
        if strStartsWith p "//" ∧ ¬ strStartsWith p "///" then 2 else 1
      else 0
    let comps := (splitOnChar '/' p.toList).filter
      (fun comp => comp ≠ [] ∧ comp ≠ ['.'])
    let newComps := comps.foldl (fun acc comp =>
      if comp ≠ ['.', '.'] then acc ++ [comp]
      else if initSlashes = 0 ∧ acc = [] then acc ++ [comp]
      else if acc.getLast? = some ['.', '.'] then acc ++ [comp]
      else if acc = [] then acc
      else acc.dropLast) ([] : List (List Char))
    let out := List.replicate initSlashes '/' ++ joinWithChar '/' newComps
    if out = [] then "." else String.mk out

/-- Python `str.replace` (all non-overlapping occurrences, left to right),
on character lists with a fuel bound.  The empty-pattern edge case of
Python (which inserts the replacement everywhere) is not reproduced; the
source only ever replaces nonempty substrings. -/
def replaceAux (pat rep : List Char) : Nat → List Char → List Char
  | _, [] => []
  | 0, l => l
  | Nat.succ fuel, c :: rest =>
      if pat ≠ [] ∧ pat.isPrefixOf (c :: rest) then
        rep ++ replaceAux pat rep fuel ((c :: rest).drop pat.length)
      else c :: replaceAux pat rep fuel rest

/-- Python `str.replace` on strings. -/
def strReplace (s pat rep : String) : String :=
  String.mk (replaceAux pat.toList rep.toList s.toList.length s.toList)

/-- Trailing-slash normalization used before building rsync endpoints
(`local_path if local_path.endswith('/') else f"{local_path}/"`). -/
def ensureSlash (p : String) : String :=
  if strEndsWith p "/" then p else p ++ "/"

/-! ## Configuration model

The YAML configuration as consumed by the orchestrator.  Values that the
source reads with `isinstance(x, dict)` dispatch (backup directory,
db-temp directory) are modelled by `StrOrMap`.  Absent optional sections
are `Option`s; `.get(key, default)` chains become `Option` accessors. -/

inductive Direction
  | push
  | pull
deriving DecidableEq, Repr

/-- A configuration value that is either a plain string (legacy format) or
a `{local: …, remote: …}` mapping (structured format). -/
inductive StrOrMap
  | plain (s : String)
  | perSide (localVal remoteVal : Option String)
deriving DecidableEq, Repr

structure DomainPair where
  http : String
  https : String
deriving DecidableEq, Repr

/-- `config["backup"]["database"]`. -/
structure DbBackupCfg where
  enabled : Bool
  directory : Option String
  filenameFormat : Option String
deriving DecidableEq, Repr

/-- `config["backup"]`. -/
structure BackupCfg where
  directory : Option StrOrMap
  database : Option DbBackupCfg
  /-- `config["backup"].get("enabled", True)` as read by `SSHManager._get_backup_dir`. -/
  enabled : Bool
  archiveFormat : Option String
deriving DecidableEq, Repr

/-- `config["plugins"][env]`. -/
structure PluginEnvCfg where
  activate : Option (List String)
  deactivate : Option (List String)
deriving DecidableEq, Repr

structure PluginsCfg where
  localEnv : Option PluginEnvCfg
  liveEnv : Option PluginEnvCfg
deriving DecidableEq, Repr

/-- `config["validation"]["checks"]["accessibility"]`, with the
`.get(key, True)` defaults already applied to its two flags. -/
structure AccessibilityCfg where
  homepage : Bool
  wpAdmin : Bool
deriving DecidableEq, Repr

/-- `config["validation"]["checks"]["core_files"]`. -/
structure CoreFilesCfg where
  enabled : Bool
  verifyChecksums : Bool
  criticalFiles : Option (List String)
deriving DecidableEq, Repr

/-- `config["validation"]["checks"]["database"]`. -/
structure DbChecksCfg where
  enabled : Bool
  verifyCoreTables : Bool
  additionalTables : Option (List String)
deriving DecidableEq, Repr

structure ValidationChecksCfg where
  coreFiles : Option CoreFilesCfg
  database : Option DbChecksCfg
  accessibility : Option AccessibilityCfg
deriving DecidableEq, Repr

structure ValidationCfg where
  enabled : Bool
  checks : Option ValidationChecksCfg
deriving DecidableEq, Repr

structure Config where
  localPath : String
  livePath : String
  dbTemp : StrOrMap
  dbFilename : Option String
  backup : Option BackupCfg
  sshUser : String
  sshHost : String
  sshKeyPath : String
  /-- `config["ssh"]["sudo"]["user"]` when both keys are present. -/
  sudoUser : Option String
  /-- `config["ownership"]` (`user`, `group`) when present. -/
  ownership : Option (String × String)
  /-- `config["rsync"].get("cleanup_files", [])`. -/
  rsyncCleanupFiles : List String
  /-- `config["rsync"]["dry_run"]` when present. -/
  rsyncDryRunCfg : Option Bool
  /-- `config.get("no_trash", False)`. -/
  noTrash : Bool
  domainsStaging : DomainPair
  domainsLive : DomainPair
  plugins : Option PluginsCfg
  validation : Option ValidationCfg
deriving DecidableEq, Repr

/-- Parsed command-line arguments (after `parse_arguments`). -/
structure Args where
  direction : Direction
  noDryRun : Bool
  skipValidation : Bool
  skipWpCheck : Bool
  commandOnly : Bool
  sudoPassword : Option String
  noBackup : Bool
  skipFinalCleanup : Bool
  dbOnly : Bool
  filesOnly : Bool
  nonInteractive : Bool
deriving DecidableEq, Repr

/-- Effective dry-run flag after `parse_arguments` and
`initialize_managers`: `--no-dry-run` wins; otherwise a config
`rsync.dry_run: false` disables the dry run. -/
def effDryRun (a : Args) (c : Config) : Bool :=
  if a.noDryRun then false
  else if c.rsyncDryRunCfg = some false then false
  else true

/-! ## Backup root resolution (`cli/wordpress_sync.py` lines 54-128) -/

/-- `WordPressSync._is_new_backup_format`. -/
def isNewBackupFormat (c : Config) : Bool :=
  match c.backup with
  | none => false
  | some b =>
      match b.directory with
      | some (.perSide _ _) => true
      | _ => false

/-- `self.config["backup"].get("directory", "../.backup")` (the source
inserts an empty `backup` section first when absent, so the default also
applies in that case). -/
def backupDirectoryRaw (c : Config) : StrOrMap :=
  match c.backup with
  | none => .plain "../.backup"
  | some b => b.directory.getD (.plain "../.backup")

/-- `WordPressSync._resolve_backup_root`. -/
def resolveBackupRoot (c : Config) (dir : Direction) : String :=
  let backupDir : String :=
    match backupDirectoryRaw c with
    | .perSide l r =>
        (match dir with
         | .push => r.getD "../wordpress-sync-backups"
         | .pull => l.getD "../wordpress-sync-backups")
    | .plain s => if s = "" then "../.backup" else s
  let basePath := match dir with
    | .push => c.livePath
    | .pull => c.localPath
  if isAbs backupDir then backupDir
  else if strStartsWith backupDir "../" then
    pathJoin (dirname (rstripSlash basePath)) (strDrop backupDir 3)
  else pathJoin (rstripSlash basePath) backupDir

/-- `WordPressSync._get_latest_backup_path`. -/
def getLatestBackupPath (c : Config) (dir : Direction) : String :=
  if isNewBackupFormat c then pathJoin (resolveBackupRoot c dir) "latest"
  else resolveBackupRoot c dir

/-- `WordPressSync._get_archives_path`. -/
def getArchivesPath (c : Config) (dir : Direction) : String :=
  if isNewBackupFormat c then pathJoin (resolveBackupRoot c dir) "archives"
  else dirname (getLatestBackupPath c dir)

/-! Specification-side formulation of the resolution rule, written from
the words of the spec's claim ("a relative directory beginning with a
parent-reference is resolved against the parent of the relevant
environment's file-tree root …; any other relative directory is resolved
against that root directly"), to be compared with the source-side
functions above. -/

/-- The relevant environment's file-tree root per the spec (live root for
Push, local root for Pull). -/
def claimBase (c : Config) (dir : Direction) : String :=
  match dir with
  | .push => c.livePath
  | .pull => c.localPath

/-- Resolution of a configured backup directory per the spec's words. -/
def claimResolve (d base : String) : String :=
  if isAbs d then d
  else if strStartsWith d "../" then
    pathJoin (dirname (rstripSlash base)) (strDrop d 3)
  else pathJoin (rstripSlash base) d

/-- Replace only the backup section of a configuration. -/
def withBackupDir (c : Config) (d : StrOrMap) : Config :=
  { c with backup := some { directory := some d, database := none,
                            enabled := true, archiveFormat := none } }

/-! ## Command algebra

Each constructor stands for one command string built in the source; the
arguments carry the path/argument parts that vary with the configuration.
Read-only probes (tests, listings, checks) and the plan's
informational records are included so the plan can be compared with the
live trace entry by entry. -/

inductive Cmd
  /-- `ssh … "echo 'Connection successful'"` -/
  | sshTest
  /-- `wp --info` -/
  | wpInfo
  /-- `wp --path="…" core is-installed --allow-root` -/
  | wpCoreIsInstalled (path : String)
  /-- `mkdir -p …` / `os.makedirs` -/
  | mkdirP (path : String)
  /-- `find root -name 'pattern' -type f -delete` -/
  | findDelete (root pattern : String)
  /-- `wp --path="…" maintenance-mode activate --allow-root` -/
  | wpMaintActivate (path : String)
  /-- `wp --path="…" maintenance-mode deactivate --allow-root` -/
  | wpMaintDeactivate (path : String)
  /-- `echo "<?php $upgrading = time(); ?>" > <path>` (the plan's
  alternative maintenance method; `path` is the `.maintenance` file) -/
  | maintFileWrite (path : String)
  /-- `wp --path="…" db export <file> --allow-root` -/
  | wpDbExport (path file : String)
  /-- `scp …` single-file transfer in the given direction -/
  | scp (dir : Direction) (src dst : String)
  /-- `wp --path="…" db reset --yes --allow-root` -/
  | wpDbReset (path : String)
  /-- `wp --path="…" db import <file> --allow-root` -/
  | wpDbImport (path file : String)
  /-- the rsync mirroring invocation (options from `_build_rsync_options`
  are shared between plan and live and are not modelled; `dryFlag` is the
  `--dry-run` switch appended only by the live dry run) -/
  | rsyncTransfer (dir : Direction) (dryFlag : Bool)
  /-- `chown -R user:group <path>` (with or without a leading `sudo`) -/
  | chown (path : String)
  /-- `find <path> -type d -exec chmod 755 …` -/
  | chmodDirs (path : String)
  /-- `find <path> -type f -exec chmod 644 …` -/
  | chmodFiles (path : String)
  /-- `wp --path="…" search-replace "s" "r" --all-tables --allow-root` -/
  | wpSearchReplace (path searchUrl replaceUrl : String)
  /-- `wp --path="…" cache flush --allow-root` -/
  | wpCacheFlush (path : String)
  /-- `wp --path="…" plugin activate … --allow-root` -/
  | wpPluginActivate (path : String) (plugins : List String)
  /-- `wp --path="…" plugin deactivate … --allow-root` -/
  | wpPluginDeactivate (path : String) (plugins : List String)
  /-- `wp --path="…" db tables --allow-root` -/
  | wpDbTables (path : String)
  /-- `wp --path="…" config get table_prefix --allow-root` -/
  | wpConfigGetPrefix (path : String)
  /-- `wp --path="…" core verify-checksums --allow-root` -/
  | wpVerifyChecksums (path : String)
  /-- `test -f "…" && echo "exists" || echo "not found"` -/
  | testFileExists (path : String)
  /-- `curl -sSL --head "url" | grep -E "^HTTP"` (plan only) -/
  | curlCheck (url : String)
  /-- `requests.get(url, …)` (live accessibility check) -/
  | httpGet (url : String)
  /-- `test -d … && find … -type f | wc -l || echo 0` / the local walk -/
  | checkBackupCount (dir : String)
  /-- `find <dir> -type f | sort` -/
  | listBackupFiles (dir : String)
  /-- `rm -rf <path>` / `shutil.rmtree` -/
  | rmRf (path : String)
  /-- `rm -f <path>` / `os.remove` -/
  | rmF (path : String)
  /-- `os.rmdir` of an empty temp directory -/
  | rmdirIfEmpty (path : String)
  /-- `mv <src> <dst>` / `shutil.move` -/
  | mv (src dst : String)
  /-- `test -w <path> && echo 'WRITABLE' || echo 'NOT_WRITABLE'` -/
  | testWritable (path : String)
  /-- `test -d <path> && echo 'EXISTS' || …` -/
  | testDirExists (path : String)
  /-- `sudo -n true 2>/dev/null && echo 'NOPASSWD' || echo 'PASSWORD'` -/
  | sudoNopasswdCheck
  /-- a plan record whose command text is empty or a `#` comment; the tag
  abbreviates its description -/
  | info (tag : String)
deriving DecidableEq, Repr

/-- Whether a command mutates the file tree, the database, or the site
state when executed (read-only probes, listings and informational records
do not; an rsync invocation carrying `--dry-run` does not). -/
def isMutating : Cmd → Bool
  | .mkdirP _ => true
  | .findDelete _ _ => true
  | .wpMaintActivate _ => true
  | .wpMaintDeactivate _ => true
  | .maintFileWrite _ => true
  | .wpDbExport _ _ => true
  | .scp _ _ _ => true
  | .wpDbReset _ => true
  | .wpDbImport _ _ => true
  | .rsyncTransfer _ dryFlag => !dryFlag
  | .chown _ => true
  | .chmodDirs _ => true
  | .chmodFiles _ => true
  | .wpSearchReplace _ _ _ => true
  | .wpCacheFlush _ => true
  | .wpPluginActivate _ _ => true
  | .wpPluginDeactivate _ _ => true
  | .rmRf _ => true
  | .rmF _ => true
  | .rmdirIfEmpty _ => true
  | .mv _ _ => true
  | _ => false

/-- Where a plan record says the command would run. -/
inductive Host
  | localHost
  | remoteHost
  | both
deriving DecidableEq, Repr

/-- One record collected by `CommandCollector.add_command`:
`{section, command, description, environment, user}` (the description text
is folded into the `Cmd` constructor and the `info` tags). -/
structure PlanEntry where
  sect : String
  cmd : Cmd
  host : Host
  ident : Option String
deriving DecidableEq, Repr

/-! ## Oracle of external outcomes

Results of external commands, operator prompt answers, file-system
probes, and the `time.strftime` timestamps, fixed for one run. -/

structure Oracle where
  /-- result of `time.strftime` for archive/backup names -/
  ts : String
  preCheckOk : Bool
  preHasFiles : Bool
  preExistsLocal : Bool
  /-- preflight prompt: keep (archive) the existing backup? -/
  keepExisting : Bool
  preArchiveOk : Bool
  preRemoveOk : Bool
  exportOk : Bool
  /-- pull: scp of the exported dump to the local side -/
  exportScpOk : Bool
  cleanupWritable : Bool
  /-- a sudo path (NOPASSWD or prompted password) is available for the
  destination cleanup -/
  cleanupSudoAvailable : Bool
  backupDirExists : Bool
  rsyncOk : Bool
  nopasswd : Bool
  passwordProvided : Bool
  chownOk : Bool
  chmodDirsOk : Bool
  chmodFilesOk : Bool
  /-- push: scp of the dump to the remote side inside `import_database` -/
  importScpOk : Bool
  /-- prompt: back up the destination database before reset? -/
  dbBackupYes : Bool
  dbBackupMkdirOk : Bool
  dbBackupOk : Bool
  resetOk : Bool
  importOk : Bool
  validationOk : Bool
  finalCheckOk : Bool
  finalHasFiles : Bool
  finalExistsLocal : Bool
  /-- final-cleanup prompt: delete the backed up files? -/
  finalDelete : Bool
  finalRemoveOk : Bool
  finalArchiveOk : Bool
  cleanupDbFileExists : Bool
  cleanupLocalTempExists : Bool
  cleanupLocalTempEmpty : Bool
deriving DecidableEq, Repr

/-! ## Database manager (`cli/resources/database_manager.py`) -/

/-- `config["paths"].get("db_filename", "wordpress-sync-database.sql")`. -/
def dbFilenameOf (c : Config) : String :=
  c.dbFilename.getD "wordpress-sync-database.sql"

/-- `DatabaseManager.db_temp_local`. -/
def dbTempLocalRaw (c : Config) : String :=
  match c.dbTemp with
  | .perSide l _ => l.getD "/tmp"
  | .plain s => s

/-- `DatabaseManager.db_temp_remote`. -/
def dbTempRemoteRaw (c : Config) : String :=
  match c.dbTemp with
  | .perSide _ r => r.getD "/tmp"
  | .plain s => s

/-- `DatabaseManager._get_local_db_temp_path` (its plain-relative branch
joins against `local_path` without stripping a trailing slash). -/
def dbmLocalDbTemp (c : Config) : String :=
  let t := dbTempLocalRaw c
  if isAbs t then t
  else if strStartsWith t "../" then
    pathJoin (dirname (rstripSlash c.localPath)) (strDrop t 3)
  else pathJoin c.localPath t

/-- `DatabaseManager._get_remote_db_temp_path`. -/
def dbmRemoteDbTemp (c : Config) : String :=
  let t := dbTempRemoteRaw c
  if isAbs t then t
  else if strStartsWith t "../" then
    pathJoin (dirname (rstripSlash c.livePath)) (strDrop t 3)
  else pathJoin c.livePath t

/-- `WordPressSync._resolve_local_db_temp` (the CLI's own copy; unlike the
database manager's, its plain-relative branch strips the base's trailing
slash before joining). -/
def resolveLocalDbTemp (c : Config) : String :=
  let t := dbTempLocalRaw c
  if isAbs t then t
  else if strStartsWith t "../" then
    pathJoin (dirname (rstripSlash c.localPath)) (strDrop t 3)
  else pathJoin (rstripSlash c.localPath) t

/-- `WordPressSync._resolve_remote_db_temp`. -/
def resolveRemoteDbTemp (c : Config) : String :=
  let t := dbTempRemoteRaw c
  if isAbs t then t
  else if strStartsWith t "../" then
    pathJoin (dirname (rstripSlash c.livePath)) (strDrop t 3)
  else pathJoin (rstripSlash c.livePath) t

/-- `config["backup"]["database"].get("enabled", False)` guarded by the
presence of both sections. -/
def dbBackupEnabled (c : Config) : Bool :=
  match c.backup.bind (fun b => b.database) with
  | some db => db.enabled
  | none => false

/-- `DatabaseManager._get_db_backup_path`, directory part. -/
def dbBackupDir (c : Config) (isRemote : Bool) : String :=
  let basePath := if isRemote then c.livePath else c.localPath
  match (c.backup.bind (fun b => b.directory)) with
  | some (.perSide l r) =>
      let rootDir := (if isRemote then r else l).getD "../wordpress-sync-backups"
      if isAbs rootDir then pathJoin rootDir "db"
      else if strStartsWith rootDir "../" then
        pathJoin (pathJoin (dirname (rstripSlash basePath)) (strDrop rootDir 3)) "db"
      else pathJoin (pathJoin (rstripSlash basePath) rootDir) "db"
  | _ =>
      let backupDir :=
        ((c.backup.bind (fun b => b.database)).bind (fun db => db.directory)).getD
          "../wordpress-sync-db-backups"
      if isAbs backupDir then backupDir
      else if strStartsWith backupDir "../" then
        pathJoin (dirname (rstripSlash basePath)) (strDrop backupDir 3)
      else pathJoin basePath backupDir

/-- `DatabaseManager.backup_database` (only ever called with
`dry_run=False`, from `reset_database`). -/
def backupDatabase (c : Config) (dir : Direction) (o : Oracle) :
    Option String × List Cmd :=
  let isRemote := dir = Direction.push
  let targetPath := if isRemote then c.livePath else c.localPath
  let bdir := dbBackupDir c isRemote
  let bfile := pathJoin bdir (o.ts ++ ".sql")
  if isRemote then
    if !o.dbBackupMkdirOk then (none, [.mkdirP bdir])
    else if o.dbBackupOk then (some bfile, [.mkdirP bdir, .wpDbExport targetPath bfile])
    else (none, [.mkdirP bdir, .wpDbExport targetPath bfile])
  else
    if o.dbBackupOk then (some bfile, [.mkdirP bdir, .wpDbExport targetPath bfile])
    else (none, [.mkdirP bdir, .wpDbExport targetPath bfile])

/-- `DatabaseManager.reset_database` for a live call (`import_database`
returns before reaching it on a dry run).  The optional pre-reset backup
prompt defaults to yes in non-interactive mode. -/
def resetDatabase (a : Args) (c : Config) (dir : Direction) (o : Oracle) :
    Bool × List Cmd :=
  let targetPath := if dir = Direction.push then c.livePath else c.localPath
  let backupCmds :=
    if dbBackupEnabled c then
      if a.nonInteractive || o.dbBackupYes then (backupDatabase c dir o).2 else []
    else []
  (o.resetOk, backupCmds ++ [.wpDbReset targetPath])

/-- `DatabaseManager.export_database`.  Returns the path of the usable
dump (`None` on failure) and the commands run. -/
def exportDatabase (c : Config) (dir : Direction) (dry : Bool) (o : Oracle) :
    Option String × List Cmd :=
  match dir with
  | .push =>
      let dbFile := pathJoin (dbmLocalDbTemp c) (dbFilenameOf c)
      if dry then (some dbFile, [])
      else if o.exportOk then (some dbFile, [.wpDbExport c.localPath dbFile])
      else (none, [.wpDbExport c.localPath dbFile])
  | .pull =>
      let remoteTemp := dbmRemoteDbTemp c
      let dbFile := pathJoin remoteTemp (dbFilenameOf c)
      if dry then (some dbFile, [])
      else
        let pre := [Cmd.mkdirP remoteTemp, Cmd.wpDbExport c.livePath dbFile]
        if !o.exportOk then (none, pre)
        else
          let localFile := pathJoin (dbmLocalDbTemp c) (dbFilenameOf c)
          if o.exportScpOk then (some localFile, pre ++ [.scp .pull dbFile localFile])
          else (none, pre ++ [.scp .pull dbFile localFile])

/-- `DatabaseManager.import_database`. -/
def importDatabase (a : Args) (c : Config) (dir : Direction) (dbFile : String)
    (dry : Bool) (o : Oracle) : Bool × List Cmd :=
  match dir with
  | .push =>
      let remoteTemp := dbmRemoteDbTemp c
      let remoteFile := pathJoin remoteTemp (dbFilenameOf c)
      if dry then (true, [])
      else
        let pre := [Cmd.mkdirP remoteTemp, Cmd.scp .push dbFile remoteFile]
        if !o.importScpOk then (false, pre)
        else
          (o.importOk, pre ++ (resetDatabase a c .push o).2 ++
            [.wpDbImport c.livePath remoteFile])
  | .pull =>
      if dry then (true, [])
      else (o.importOk, (resetDatabase a c .pull o).2 ++ [.wpDbImport c.localPath dbFile])

/-- `DatabaseManager.clear_cache`. -/
def clearCacheCmds (c : Config) (dir : Direction) (dry : Bool) : List Cmd :=
  if dry then []
  else [.wpCacheFlush (if dir = Direction.push then c.livePath else c.localPath)]

/-- `DatabaseManager.cleanup`.  Failures inside it only change printed
warnings; every command is still attempted in order. -/
def dbCleanup (c : Config) (dbFile : String) (dry : Bool) (o : Oracle) : List Cmd :=
  if dry then []
  else
    let localTemp := dbmLocalDbTemp c
    let remoteTemp := dbmRemoteDbTemp c
    let remoteFile := pathJoin remoteTemp (dbFilenameOf c)
    (if o.cleanupDbFileExists then [Cmd.rmF dbFile] else []) ++
    (if o.cleanupLocalTempExists && o.cleanupLocalTempEmpty then
      [Cmd.rmdirIfEmpty localTemp] else []) ++
    [Cmd.rmF remoteFile, Cmd.rmRf remoteTemp]

/-! ## URL, plugin and maintenance managers -/

/-- The JSON-escaping transform of `URLManager.replace_urls`. -/
def escapeUrl (s : String) : String :=
  strReplace (strReplace s ":" "\\:") "/" "\\/"

/-- `URLManager.replace_urls`.  Individual replacement failures only log
warnings; all four commands are always attempted. -/
def replaceUrlsCmds (c : Config) (dir : Direction) (dry : Bool) : List Cmd :=
  if dry then []
  else
    let target := if dir = Direction.push then c.livePath else c.localPath
    let sd := if dir = Direction.push then c.domainsStaging else c.domainsLive
    let rd := if dir = Direction.push then c.domainsLive else c.domainsStaging
    [.wpSearchReplace target sd.http rd.http,
     .wpSearchReplace target sd.https rd.https,
     .wpSearchReplace target (strReplace sd.http "http://" "")
       (strReplace rd.http "http://" ""),
     .wpSearchReplace target (escapeUrl sd.https) (escapeUrl rd.https)]

/-- `PluginManager.manage_plugins`. -/
def managePluginsCmds (c : Config) (dir : Direction) (dry : Bool) : List Cmd :=
  match c.plugins with
  | none => []
  | some pl =>
      let env := match dir with
        | .push => pl.liveEnv
        | .pull => pl.localEnv
      let acts := (env.bind (fun e => e.activate)).getD []
      let deacts := (env.bind (fun e => e.deactivate)).getD []
      if acts = [] ∧ deacts = [] then []
      else if dry then []
      else
        let target := if dir = Direction.push then c.livePath else c.localPath
        (if acts ≠ [] then [Cmd.wpPluginActivate target acts] else []) ++
        (if deacts ≠ [] then [Cmd.wpPluginDeactivate target deacts] else [])

/-- `MaintenanceManager.activate_maintenance_mode`: both sides are always
attempted; failures are warnings only. -/
def maintActivateCmds (c : Config) (dry : Bool) : List Cmd :=
  if dry then []
  else [.wpMaintActivate c.localPath, .wpMaintActivate c.livePath]

/-- `MaintenanceManager.deactivate_maintenance_mode`. -/
def maintDeactivateCmds (c : Config) (dry : Bool) : List Cmd :=
  if dry then []
  else [.wpMaintDeactivate c.localPath, .wpMaintDeactivate c.livePath]

/-! ## SSH manager (`cli/resources/ssh_manager.py`) -/

/-- `SSHManager._get_backup_dir` before resolution: `None` when the
backup section is absent or disabled, otherwise the raw
`backup.get("directory", "../.trash")` value. -/
def sshBackupDirRaw (c : Config) : Option StrOrMap :=
  match c.backup with
  | none => none
  | some b => if b.enabled then some (b.directory.getD (.plain "../.trash")) else none

/-- `SSHManager._ensure_backup_dir_exists` (direction is set at this
point).  A structured (dict) directory raises `TypeError` inside
`os.path.isabs`, which the surrounding `try` swallows before any command
runs. -/
def ensureBackupDirCmds (c : Config) (dir : Direction) (o : Oracle) : List Cmd :=
  match sshBackupDirRaw c with
  | none => []
  | some (.perSide _ _) => []
  | some (.plain d) =>
      let basePath := if dir = Direction.push then c.livePath else c.localPath
      let bd := if isAbs d then d else normpath (pathJoin (dirname basePath) d)
      match dir with
      | .push => [Cmd.testDirExists bd] ++
          (if o.backupDirExists then [] else [Cmd.mkdirP bd])
      | .pull => if o.backupDirExists then [] else [Cmd.mkdirP bd]

/-- `SSHManager._cleanup_destination_files`.  The `xargs rm -f` retry
after a failed sudo attempt targets the same root and pattern and is
summarized by the single `findDelete` record. -/
def cleanupDestinationCmds (c : Config) (dir : Direction)
    (sudoPw : Option String) (o : Oracle) : List Cmd :=
  if c.rsyncCleanupFiles = [] then []
  else
    match dir with
    | .pull => c.rsyncCleanupFiles.map (fun pat => Cmd.findDelete c.localPath pat)
    | .push =>
        c.rsyncCleanupFiles.flatMap (fun pat =>
          [Cmd.testWritable c.livePath] ++
          (if c.sudoUser.isSome then [Cmd.findDelete c.livePath pat]
           else if o.cleanupWritable then [Cmd.findDelete c.livePath pat]
           else if sudoPw.isSome then [Cmd.findDelete c.livePath pat]
           else [Cmd.sudoNopasswdCheck] ++
             (if o.cleanupSudoAvailable then [Cmd.findDelete c.livePath pat] else [])))

/-- `SSHManager.transfer_files`.  Pre-sync destination cleanup and the
backup-directory check only run on a live transfer; the dry run appends
`--dry-run` to the rsync invocation. -/
def transferFiles (c : Config) (dir : Direction) (dry : Bool)
    (sudoPw : Option String) (o : Oracle) : Bool × List Cmd :=
  let pre := if dry then [] else cleanupDestinationCmds c dir sudoPw o
  let ens := if !c.noTrash && !dry then ensureBackupDirCmds c dir o else []
  (o.rsyncOk, pre ++ ens ++ [.rsyncTransfer dir dry])

/-- The chown/chmod chain of `SSHManager.set_permissions`, stopping at the
first failed command. -/
def permissionChain (c : Config) (o : Oracle) : Bool × List Cmd :=
  if !o.chownOk then (false, [.chown c.livePath])
  else if !o.chmodDirsOk then (false, [.chown c.livePath, .chmodDirs c.livePath])
  else (o.chmodFilesOk, [.chown c.livePath, .chmodDirs c.livePath, .chmodFiles c.livePath])

/-- `SSHManager.set_permissions`. -/
def setPermissions (c : Config) (sudoPw : Option String) (o : Oracle) :
    Bool × List Cmd :=
  match c.ownership with
  | none => (true, [])
  | some _ =>
      if c.sudoUser.isSome then permissionChain c o
      else if sudoPw.isSome then permissionChain c o
      else
        if o.nopasswd then
          let (ok, cmds) := permissionChain c o
          (ok, Cmd.sudoNopasswdCheck :: cmds)
        else if o.passwordProvided then
          let (ok, cmds) := permissionChain c o
          (ok, Cmd.sudoNopasswdCheck :: cmds)
        else (false, [Cmd.sudoNopasswdCheck])

/-! ## Backup review steps (`cli/wordpress_sync.py` lines 236-451) -/

/-- `WordPressSync.handle_existing_backup` (reached only on a live,
backup-enabled run).  The prompt defaults to keep/archive in
non-interactive mode. -/
def handleExistingBackup (a : Args) (c : Config) (o : Oracle) : Bool × List Cmd :=
  if a.noBackup then (true, [])
  else
    let dir := a.direction
    let backupDir := getLatestBackupPath c dir
    let archivesDir := getArchivesPath c dir
    let archivePath := pathJoin archivesDir o.ts
    let keep := a.nonInteractive || o.keepExisting
    match dir with
    | .push =>
        let pre := [Cmd.mkdirP backupDir, Cmd.checkBackupCount backupDir]
        if !o.preCheckOk then (false, pre)
        else if !o.preHasFiles then (true, pre)
        else
          let lst := [Cmd.testDirExists backupDir, Cmd.listBackupFiles backupDir]
          if keep then
            (o.preArchiveOk,
             pre ++ lst ++ [Cmd.mkdirP archivesDir, Cmd.mv backupDir archivePath])
          else
            let cmds := pre ++ lst ++ [Cmd.rmRf backupDir]
            if !o.preRemoveOk then (false, cmds)
            else (true, cmds ++ [Cmd.mkdirP backupDir])
    | .pull =>
        if !o.preExistsLocal then (true, [Cmd.mkdirP backupDir])
        else if !o.preHasFiles then (true, [])
        else if keep then
          (o.preArchiveOk, [Cmd.mkdirP archivesDir, Cmd.mv backupDir archivePath])
        else (true, [Cmd.rmRf backupDir, Cmd.mkdirP backupDir])

/-- `WordPressSync.handle_final_backup_cleanup`.  The delete prompt
defaults to "no" (keep/archive) in non-interactive mode. -/
def handleFinalBackupCleanup (a : Args) (c : Config) (o : Oracle) :
    Bool × List Cmd :=
  if a.noBackup then (true, [])
  else
    let dir := a.direction
    let backupDir := getLatestBackupPath c dir
    let archivesDir := getArchivesPath c dir
    let archivePath := pathJoin archivesDir o.ts
    let del := if a.nonInteractive then false else o.finalDelete
    match dir with
    | .push =>
        let pre := [Cmd.mkdirP backupDir, Cmd.checkBackupCount backupDir]
        if !o.finalCheckOk then (false, pre)
        else if !o.finalHasFiles then (true, pre)
        else
          let lst := [Cmd.testDirExists backupDir, Cmd.listBackupFiles backupDir]
          if del then (o.finalRemoveOk, pre ++ lst ++ [Cmd.rmRf backupDir])
          else
            (o.finalArchiveOk,
             pre ++ lst ++ [Cmd.mkdirP archivesDir, Cmd.mv backupDir archivePath])
    | .pull =>
        if !o.finalExistsLocal then (true, [])
        else if !o.finalHasFiles then (true, [])
        else if del then (true, [Cmd.rmRf backupDir])
        else (o.finalArchiveOk, [Cmd.mkdirP archivesDir, Cmd.mv backupDir archivePath])

/-! ## Validation manager (`cli/resources/validation_manager.py`)

Only its command emissions are modelled (all are read-only); the
truncation of this read-only sequence after an individual check failure is
not tracked, since the pipeline only consumes the boolean verdict. -/

/-- The default `critical_files` of the built-in validation config. -/
def defaultCriticalFiles : List String :=
  ["wp-config.php", "wp-content/index.php", ".htaccess"]

/-- Commands of `ValidationManager.validate_core_files`: the checksum
verification and, for a remote target, one `test -f` per critical file
(local files are probed with `os.path.isfile`, not a command). -/
def coreFilesValidationCmds (target : String) (isRemote : Bool)
    (verifyChecksums : Bool) (critical : List String) : List Cmd :=
  (if verifyChecksums then [Cmd.wpVerifyChecksums target] else []) ++
  (if isRemote then critical.map (fun f => Cmd.testFileExists (pathJoin target f))
   else [])

/-- Commands of `ValidationManager.validate_database`: core-table and
additional-table verification each fetch the table prefix and the table
list. -/
def dbValidationCmds (target : String) (verifyCoreTables : Bool)
    (additional : List String) : List Cmd :=
  (if verifyCoreTables then [Cmd.wpConfigGetPrefix target, Cmd.wpDbTables target]
   else []) ++
  (if additional ≠ [] then [Cmd.wpConfigGetPrefix target, Cmd.wpDbTables target]
   else [])

/-- Commands of `ValidationManager.validate_accessibility`. -/
def accessibilityValidationCmds (domain : String) (homepage wpAdmin : Bool) :
    List Cmd :=
  (if homepage then [Cmd.httpGet domain] else []) ++
  (if wpAdmin then [Cmd.httpGet (domain ++ "/wp-admin/")] else [])

/-- `ValidationManager.run_validation_checks`.  When the YAML validation
section is absent or falsy the manager substitutes its built-in default
configuration (all checks enabled, default critical files). -/
def validationCmds (c : Config) (dir : Direction) (skipFiles skipDb : Bool) :
    List Cmd :=
  let target := if dir = Direction.push then c.livePath else c.localPath
  let isRemote := dir = Direction.push
  let domain := if dir = Direction.push then c.domainsLive.https
                else c.domainsStaging.https
  match c.validation with
  | none =>
      (if !skipFiles then
        coreFilesValidationCmds target isRemote true defaultCriticalFiles else []) ++
      (if !skipDb then dbValidationCmds target true [] else []) ++
      accessibilityValidationCmds domain true true
  | some v =>
      if !v.enabled then []
      else
        let cf := v.checks.bind (fun ch => ch.coreFiles)
        let db := v.checks.bind (fun ch => ch.database)
        let acc := v.checks.bind (fun ch => ch.accessibility)
        let coreEnabled := (cf.map (fun x => x.enabled)).getD true
        let verifyChecksums := (cf.map (fun x => x.verifyChecksums)).getD true
        let critical := (cf.bind (fun x => x.criticalFiles)).getD []
        let dbEnabled := (db.map (fun x => x.enabled)).getD true
        let verifyCoreTables := (db.map (fun x => x.verifyCoreTables)).getD true
        let additional := (db.bind (fun x => x.additionalTables)).getD []
        let homepage := (acc.map (fun x => x.homepage)).getD true
        let wpAdmin := (acc.map (fun x => x.wpAdmin)).getD true
        (if !skipFiles && coreEnabled then
          coreFilesValidationCmds target isRemote verifyChecksums critical else []) ++
        (if !skipDb && dbEnabled then
          dbValidationCmds target verifyCoreTables additional else []) ++
        (if homepage || wpAdmin then
          accessibilityValidationCmds domain homepage wpAdmin else [])

/-- Whether `initialize_managers` constructed a validation manager:
`not args.skip_validation and config.get("validation", {}).get("enabled", True)`. -/
def validationManagerPresent (a : Args) (c : Config) : Bool :=
  !a.skipValidation && ((c.validation.map (fun v => v.enabled)).getD true)

/-! ## Plan renderer: the `--command-only` branch of `run_synchronization`
(`cli/wordpress_sync.py` lines 683-1362)

The branch maintains two local variables, `target_path` and `is_remote`,
that are assigned only inside the URL-replacement block (skipped for a
files-only sync).  Later reads of them are modelled through
`Option UrlCtx`; a read with no assignment raises `UnboundLocalError`,
which the renderer propagates as `Except.error`. -/

structure UrlCtx where
  targetPath : String
  isRemote : Bool
deriving DecidableEq, Repr

/-- The assignment of `target_path`/`is_remote` performed by the URL
block, when that block runs. -/
def planUrlCtx (a : Args) (c : Config) : Option UrlCtx :=
  if a.filesOnly then none
  else some (match a.direction with
    | .push => ⟨c.livePath, true⟩
    | .pull => ⟨c.localPath, false⟩)

def ctxHost (u : UrlCtx) : Host := if u.isRemote then .remoteHost else .localHost

def ctxIdent (c : Config) (u : UrlCtx) : Option String :=
  some (if u.isRemote then c.sshUser else "Local User (root)")

/-- Evaluate a piece of the plan that reads `target_path`/`is_remote`. -/
def requireCtx (ctx : Option UrlCtx) (f : UrlCtx → List PlanEntry) :
    Except String (List PlanEntry) :=
  match ctx with
  | some u => .ok (f u)
  | none =>
      .error "UnboundLocalError: local variable target_path referenced before assignment"

/-- Section "Environment Validation" of the plan. -/
def planEnvValidation (a : Args) (c : Config) : List PlanEntry :=
  [⟨"Environment Validation", .sshTest, .localHost, some "Local User"⟩] ++
  (if a.skipWpCheck then []
   else
    [⟨"Environment Validation", .wpInfo, .localHost, some "Local User"⟩,
     ⟨"Environment Validation", .wpCoreIsInstalled c.localPath, .localHost,
       some "Local User (root)"⟩,
     ⟨"Environment Validation", .wpCoreIsInstalled c.livePath, .remoteHost,
       some c.sshUser⟩])

/-- Section "Directory Setup". -/
def planDirectorySetup (c : Config) : List PlanEntry :=
  [⟨"Directory Setup", .mkdirP (resolveLocalDbTemp c), .localHost, some "Local User"⟩,
   ⟨"Directory Setup", .mkdirP (resolveRemoteDbTemp c), .remoteHost, some c.sshUser⟩]

/-- Section "Pre-sync Cleanup". -/
def planPreSyncCleanup (a : Args) (c : Config) : List PlanEntry :=
  if c.rsyncCleanupFiles = [] then []
  else
    match a.direction with
    | .push => c.rsyncCleanupFiles.map (fun pat =>
        ⟨"Pre-sync Cleanup", .findDelete c.livePath pat, .remoteHost, some c.sshUser⟩)
    | .pull => c.rsyncCleanupFiles.map (fun pat =>
        ⟨"Pre-sync Cleanup", .findDelete c.localPath pat, .localHost, some "Local User"⟩)

/-- Section "Maintenance Mode", including the alternative
`.maintenance`-file method the plan always lists. -/
def planMaintenance (c : Config) : List PlanEntry :=
  [⟨"Maintenance Mode", .wpMaintActivate c.localPath, .localHost,
     some "Local User (root)"⟩,
   ⟨"Maintenance Mode", .wpMaintActivate c.livePath, .remoteHost, some c.sshUser⟩,
   ⟨"Maintenance Mode", .maintFileWrite (pathJoin c.localPath ".maintenance"),
     .localHost, some "Local User"⟩,
   ⟨"Maintenance Mode", .maintFileWrite (pathJoin c.livePath ".maintenance"),
     .remoteHost, some c.sshUser⟩]

/-- The database-backup directory as the plan resolves it (lines 841-853
and 920-932; the legacy plain-relative branch joins without stripping the
base's trailing slash). -/
def planDbBackupDir (c : Config) (dir : Direction) : String :=
  if isNewBackupFormat c then pathJoin (resolveBackupRoot c dir) "db"
  else
    let basePath := if dir = Direction.push then c.livePath else c.localPath
    let backupDir :=
      ((c.backup.bind (fun b => b.database)).bind (fun db => db.directory)).getD
        "../wordpress-sync-db-backups"
    if isAbs backupDir then backupDir
    else if strStartsWith backupDir "../" then
      pathJoin (dirname (rstripSlash basePath)) (strDrop backupDir 3)
    else pathJoin basePath backupDir

/-- Section "Database Operations". -/
def planDatabaseOps (a : Args) (c : Config) (ts : String) : List PlanEntry :=
  if a.filesOnly then []
  else
    let sec := "Database Operations"
    let fn := dbFilenameOf c
    let localTemp := resolveLocalDbTemp c
    let remoteTemp := resolveRemoteDbTemp c
    let dbFile := pathJoin localTemp fn
    let remoteFile := pathJoin remoteTemp fn
    match a.direction with
    | .push =>
        [⟨sec, .wpDbExport c.localPath dbFile, .localHost, some "Local User (root)"⟩,
         ⟨sec, .scp .push dbFile remoteFile, .localHost, some "Local User"⟩] ++
        (if dbBackupEnabled c then
          let bdir := planDbBackupDir c .push
          [⟨sec, .mkdirP bdir, .remoteHost, some c.sshUser⟩,
           ⟨sec, .wpDbExport c.livePath (pathJoin bdir (ts ++ ".sql")), .remoteHost,
             some c.sshUser⟩]
         else []) ++
        [⟨sec, .wpDbReset c.livePath, .remoteHost, some c.sshUser⟩,
         ⟨sec, .wpDbImport c.livePath remoteFile, .remoteHost, some c.sshUser⟩]
    | .pull =>
        [⟨sec, .wpDbExport c.livePath remoteFile, .remoteHost, some c.sshUser⟩,
         ⟨sec, .scp .pull remoteFile dbFile, .localHost, some "Local User"⟩] ++
        (if dbBackupEnabled c then
          let bdir := planDbBackupDir c .pull
          [⟨sec, .mkdirP bdir, .localHost, some "Local User"⟩,
           ⟨sec, .wpDbExport c.localPath (pathJoin bdir (ts ++ ".sql")), .localHost,
             some "Local User (root)"⟩]
         else []) ++
        [⟨sec, .wpDbReset c.localPath, .localHost, some "Local User (root)"⟩,
         ⟨sec, .wpDbImport c.localPath dbFile, .localHost, some "Local User (root)"⟩]

/-- Section "File Transfer".  For a push with an `ownership` section the
plan reads `config['ssh']['sudo']['user']` for the identity column, which
raises `KeyError` when no dedicated sudo user is configured. -/
def planFileTransfer (a : Args) (c : Config) : Except String (List PlanEntry) :=
  if a.dbOnly then .ok []
  else
    let sec := "File Transfer"
    let base : List PlanEntry :=
      [⟨sec, .info "rsync options description", .both, none⟩,
       ⟨sec, .rsyncTransfer a.direction false, .localHost, some "Local User"⟩]
    match a.direction with
    | .pull => .ok base
    | .push =>
        match c.ownership with
        | none => .ok base
        | some _ =>
            match c.sudoUser with
            | none => .error "KeyError: sudo"
            | some su =>
                .ok (base ++
                  [⟨sec, .chown (ensureSlash c.livePath), .remoteHost,
                     some (su ++ " (sudo)")⟩,
                   ⟨sec, .chmodDirs (ensureSlash c.livePath), .remoteHost,
                     some (su ++ " (sudo)")⟩,
                   ⟨sec, .chmodFiles (ensureSlash c.livePath), .remoteHost,
                     some (su ++ " (sudo)")⟩])

/-- Section "URL Replacement" (assigns `target_path`/`is_remote`). -/
def planUrlSection (a : Args) (c : Config) : List PlanEntry :=
  match planUrlCtx a c with
  | none => []
  | some u =>
      let sec := "URL Replacement"
      let sd := if a.direction = Direction.push then c.domainsStaging else c.domainsLive
      let rd := if a.direction = Direction.push then c.domainsLive else c.domainsStaging
      [⟨sec, .wpSearchReplace u.targetPath sd.http rd.http, ctxHost u, ctxIdent c u⟩,
       ⟨sec, .wpSearchReplace u.targetPath sd.https rd.https, ctxHost u, ctxIdent c u⟩,
       ⟨sec, .wpSearchReplace u.targetPath (strReplace sd.http "http://" "")
          (strReplace rd.http "http://" ""), ctxHost u, ctxIdent c u⟩,
       ⟨sec, .wpSearchReplace u.targetPath (escapeUrl sd.https) (escapeUrl rd.https),
          ctxHost u, ctxIdent c u⟩,
       ⟨sec, .wpCacheFlush u.targetPath, ctxHost u, ctxIdent c u⟩]

/-- Section "Plugin Management".  Reads `target_path`/`is_remote` when a
nonempty plugin list exists for the target environment. -/
def planPluginSection (a : Args) (c : Config) : Except String (List PlanEntry) :=
  match c.plugins with
  | none => .ok []
  | some pl => do
      let sec := "Plugin Management"
      let env := match a.direction with
        | .push => pl.liveEnv
        | .pull => pl.localEnv
      let ctx := planUrlCtx a c
      let actEntries ←
        match env.bind (fun e => e.activate) with
        | some acts =>
            if acts ≠ [] then
              requireCtx ctx (fun u =>
                [⟨sec, .wpPluginActivate u.targetPath acts, ctxHost u, ctxIdent c u⟩])
            else pure []
        | none => pure []
      let deEntries ←
        match env.bind (fun e => e.deactivate) with
        | some ds =>
            if ds ≠ [] then
              requireCtx ctx (fun u =>
                [⟨sec, .wpPluginDeactivate u.targetPath ds, ctxHost u, ctxIdent c u⟩])
            else pure []
        | none => pure []
      pure (actEntries ++ deEntries)

/-- Presence chain `validation → checks → database → additional_tables`. -/
def validationAdditionalTables (c : Config) : Option (List String) :=
  ((c.validation.bind (fun v => v.checks)).bind (fun ch => ch.database)).bind
    (fun db => db.additionalTables)

/-- Presence chain `validation → checks → core_files → critical_files`. -/
def validationCriticalFiles (c : Config) : Option (List String) :=
  ((c.validation.bind (fun v => v.checks)).bind (fun ch => ch.coreFiles)).bind
    (fun cf => cf.criticalFiles)

/-- Presence chain `validation → checks → accessibility`. -/
def validationAccessibility (c : Config) : Option AccessibilityCfg :=
  (c.validation.bind (fun v => v.checks)).bind (fun ch => ch.accessibility)

/-- Section "Validation" of the plan.  The core-files part reads
`target_path`, which is unassigned for a files-only sync. -/
def planValidationSection (a : Args) (c : Config) : Except String (List PlanEntry) :=
  if a.skipValidation then .ok []
  else do
    let sec := "Validation"
    let ctx := planUrlCtx a c
    let dbPart ←
      if a.filesOnly then pure []
      else
        requireCtx ctx (fun u =>
          [⟨sec, .wpDbTables u.targetPath, ctxHost u, ctxIdent c u⟩,
           ⟨sec, .wpConfigGetPrefix u.targetPath, ctxHost u, ctxIdent c u⟩] ++
          (match validationAdditionalTables c with
           | some tbls =>
               if tbls ≠ [] then [⟨sec, .info "additional tables check", ctxHost u, none⟩]
               else []
           | none => []))
    let filePart ←
      if a.dbOnly then pure []
      else
        requireCtx ctx (fun u =>
          [⟨sec, .wpVerifyChecksums u.targetPath, ctxHost u, ctxIdent c u⟩] ++
          (match validationCriticalFiles c with
           | some fs => fs.map (fun f =>
               ⟨sec, .testFileExists (pathJoin u.targetPath f), ctxHost u,
                 some (if u.isRemote then c.sshUser else "Local User")⟩)
           | none => []))
    let accPart :=
      match validationAccessibility c with
      | none => []
      | some acc =>
          let url := if a.direction = Direction.push then c.domainsLive.https
                     else c.domainsStaging.https
          (if acc.homepage then
            [⟨sec, Cmd.curlCheck url, Host.localHost, some "Local User"⟩] else []) ++
          (if acc.wpAdmin then
            [⟨sec, Cmd.curlCheck (url ++ "/wp-admin/"), Host.localHost,
               some "Local User"⟩] else [])
    pure (dbPart ++ filePart ++ accPart)

/-- Section "Maintenance Mode Deactivation". -/
def planMaintDeactivation (c : Config) : List PlanEntry :=
  [⟨"Maintenance Mode Deactivation", .wpMaintDeactivate c.localPath, .localHost,
     some "Local User (root)"⟩,
   ⟨"Maintenance Mode Deactivation", .wpMaintDeactivate c.livePath, .remoteHost,
     some c.sshUser⟩,
   ⟨"Maintenance Mode Deactivation", .info "verify the site", .both, none⟩]

/-- Section "Backup Management". -/
def planBackupManagement (a : Args) (c : Config) : List PlanEntry :=
  if a.noBackup then []
  else
    let sec := "Backup Management"
    let bd := getLatestBackupPath c a.direction
    let h : Host := if a.direction = Direction.push then .remoteHost else .localHost
    let u : Option String :=
      if a.direction = Direction.push then some c.sshUser else some "Local User"
    [⟨sec, .checkBackupCount bd, h, u⟩,
     ⟨sec, .mkdirP bd, h, u⟩,
     ⟨sec, .info "rsync backup note", .both, none⟩,
     ⟨sec, .listBackupFiles bd, h, u⟩,
     ⟨sec, .rmRf bd, h, u⟩]

/-- The full `--command-only` collection (`run_synchronization`
lines 683-1362).  `ts` is the `time.strftime` result used for the
database-backup filename. -/
def collectCommands (a : Args) (c : Config) (ts : String) :
    Except String (List PlanEntry) := do
  let s1 := planEnvValidation a c
  let s2 := planDirectorySetup c
  let s3 := planPreSyncCleanup a c
  let s4 := planMaintenance c
  let s5 := planDatabaseOps a c ts
  let s6 ← planFileTransfer a c
  let s7 := planUrlSection a c
  let s8 ← planPluginSection a c
  let s9 ← planValidationSection a c
  let s10 := planMaintDeactivation c
  let s11 := planBackupManagement a c
  pure (s1 ++ s2 ++ s3 ++ s4 ++ s5 ++ s6 ++ s7 ++ s8 ++ s9 ++ s10 ++ s11)

/-! ## The synchronization pipeline (`run_synchronization`) -/

/-- The pipeline step call sites of `run_synchronization`. -/
inductive Step
  | backupPreflight
  | maintOn
  | dbExport
  | fileTransfer
  | setPermissions
  | dbImport
  | urlRewrite
  | cacheClear
  | pluginManage
  | validate
  | maintOff
  | backupReview
  | cleanup
deriving DecidableEq, Repr

structure RunResult where
  /-- the boolean returned by `run_synchronization` -/
  ok : Bool
  /-- the step call sites actually invoked, in order -/
  steps : List Step
  /-- the commands actually executed (subprocess/ssh/filesystem) -/
  executed : List Cmd
  /-- the records collected in `--command-only` mode -/
  plan : List PlanEntry
  /-- how many times `deactivate_maintenance_mode` was called -/
  maintOffCalls : Nat
deriving DecidableEq, Repr

/-- The `except Exception` handler at the bottom of
`run_synchronization`: it calls `deactivate_maintenance_mode(direction,
False)` once (inside its own `try`, so this call always counts as one
invocation) and returns `False`. -/
def exceptionHandler (c : Config) (steps : List Step) (executed : List Cmd)
    (maintOffCalls : Nat) : RunResult :=
  { ok := false, steps := steps,
    executed := executed ++ maintDeactivateCmds c false,
    plan := [], maintOffCalls := maintOffCalls + 1 }

/-- The running state of the live branch: steps invoked so far, commands
executed so far, and the `db_file` local. -/
structure LiveState where
  steps : List Step
  executed : List Cmd
  dbFile : Option String
deriving DecidableEq, Repr

/-- Step 12 (lines 1468-1476): clean up temporary files, then report
success. -/
def liveCleanup (a : Args) (c : Config) (o : Oracle) (inj : Option Step)
    (st : LiveState) : RunResult :=
  let clRuns : Bool := st.dbFile.isSome
  if clRuns ∧ inj = some .cleanup then
    exceptionHandler c (st.steps ++ [.cleanup]) st.executed 1
  else
    let clCmds := if clRuns then dbCleanup c (st.dbFile.getD "") (effDryRun a c) o
                  else []
    { ok := true, steps := st.steps ++ (if clRuns then [Step.cleanup] else []),
      executed := st.executed ++ clCmds, plan := [], maintOffCalls := 1 }

/-- Step 11 (lines 1452-1466): review backed up files; a `False` from the
review aborts the run (after maintenance is already off). -/
def liveBackupReview (a : Args) (c : Config) (o : Oracle) (inj : Option Step)
    (st : LiveState) : RunResult :=
  let revRuns : Bool := !a.noBackup && !a.skipFinalCleanup && !(effDryRun a c)
  if revRuns ∧ inj = some .backupReview then
    exceptionHandler c (st.steps ++ [.backupReview]) st.executed 1
  else
    let revRes := if revRuns then handleFinalBackupCleanup a c o else (true, [])
    let st' : LiveState :=
      { steps := st.steps ++ (if revRuns then [Step.backupReview] else []),
        executed := st.executed ++ revRes.2, dbFile := st.dbFile }
    if !revRes.1 then
      { ok := false, steps := st'.steps, executed := st'.executed, plan := [],
        maintOffCalls := 1 }
    else liveCleanup a c o inj st'

/-- Step 10 (lines 1440-1442): disable maintenance mode, always invoked. -/
def liveMaintOff (a : Args) (c : Config) (o : Oracle) (inj : Option Step)
    (st : LiveState) : RunResult :=
  let st' : LiveState := { st with steps := st.steps ++ [Step.maintOff] }
  if inj = some .maintOff then exceptionHandler c st'.steps st.executed 1
  else
    liveBackupReview a c o inj
      { st' with executed := st.executed ++ maintDeactivateCmds c (effDryRun a c) }

/-- Step 9 (lines 1428-1438): validation.  When the step is reached but
`initialize_managers` constructed no validation manager (config disabled
it), the attribute access on `None` raises organically. -/
def liveValidate (a : Args) (c : Config) (o : Oracle) (inj : Option Step)
    (st : LiveState) : RunResult :=
  let valRuns : Bool := !a.skipValidation && !(effDryRun a c)
  if valRuns ∧ ¬ validationManagerPresent a c then
    exceptionHandler c st.steps st.executed 0
  else if valRuns ∧ inj = some .validate then
    exceptionHandler c (st.steps ++ [.validate]) st.executed 0
  else
    liveMaintOff a c o inj
      { steps := st.steps ++ (if valRuns then [Step.validate] else []),
        executed := st.executed ++
          (if valRuns then validationCmds c a.direction a.dbOnly a.filesOnly
           else []),
        dbFile := st.dbFile }

/-- Step 8 (lines 1419-1421): plugin management (runs only when a
database file is available). -/
def livePlugins (a : Args) (c : Config) (o : Oracle) (inj : Option Step)
    (st : LiveState) : RunResult :=
  let dbOps : Bool := !a.filesOnly && st.dbFile.isSome
  if dbOps ∧ inj = some .pluginManage then
    exceptionHandler c (st.steps ++ [.pluginManage]) st.executed 0
  else
    liveValidate a c o inj
      { steps := st.steps ++ (if dbOps then [Step.pluginManage] else []),
        executed := st.executed ++
          (if dbOps then managePluginsCmds c a.direction (effDryRun a c) else []),
        dbFile := st.dbFile }

/-- Step 7 (lines 1415-1417): cache clearing. -/
def liveCache (a : Args) (c : Config) (o : Oracle) (inj : Option Step)
    (st : LiveState) : RunResult :=
  let dbOps : Bool := !a.filesOnly && st.dbFile.isSome
  if dbOps ∧ inj = some .cacheClear then
    exceptionHandler c (st.steps ++ [.cacheClear]) st.executed 0
  else
    livePlugins a c o inj
      { steps := st.steps ++ (if dbOps then [Step.cacheClear] else []),
        executed := st.executed ++
          (if dbOps then clearCacheCmds c a.direction (effDryRun a c) else []),
        dbFile := st.dbFile }

/-- Step 6 (lines 1411-1413): URL replacement. -/
def liveUrls (a : Args) (c : Config) (o : Oracle) (inj : Option Step)
    (st : LiveState) : RunResult :=
  let dbOps : Bool := !a.filesOnly && st.dbFile.isSome
  if dbOps ∧ inj = some .urlRewrite then
    exceptionHandler c (st.steps ++ [.urlRewrite]) st.executed 0
  else
    liveCache a c o inj
      { steps := st.steps ++ (if dbOps then [Step.urlRewrite] else []),
        executed := st.executed ++
          (if dbOps then replaceUrlsCmds c a.direction (effDryRun a c) else []),
        dbFile := st.dbFile }

/-- Step 5 (lines 1405-1409): database import; its result is ignored. -/
def liveImport (a : Args) (c : Config) (o : Oracle) (inj : Option Step)
    (st : LiveState) : RunResult :=
  let dbOps : Bool := !a.filesOnly && st.dbFile.isSome
  if dbOps ∧ inj = some .dbImport then
    exceptionHandler c (st.steps ++ [.dbImport]) st.executed 0
  else
    liveUrls a c o inj
      { steps := st.steps ++ (if dbOps then [Step.dbImport] else []),
        executed := st.executed ++
          (if dbOps then
            (importDatabase a c a.direction (st.dbFile.getD "") (effDryRun a c) o).2
           else []),
        dbFile := st.dbFile }

/-- Step 4 (lines 1397-1400): permission fix-up, push and live only; its
result is ignored. -/
def livePermissions (a : Args) (c : Config) (o : Oracle) (inj : Option Step)
    (st : LiveState) : RunResult :=
  let permRuns : Bool :=
    !a.dbOnly && (a.direction = Direction.push) && !(effDryRun a c)
  if permRuns ∧ inj = some .setPermissions then
    exceptionHandler c (st.steps ++ [.setPermissions]) st.executed 0
  else
    liveImport a c o inj
      { steps := st.steps ++ (if permRuns then [Step.setPermissions] else []),
        executed := st.executed ++
          (if permRuns then (setPermissions c a.sudoPassword o).2 else []),
        dbFile := st.dbFile }

/-- Step 3 (lines 1392-1395): the rsync file transfer, skipped when
db-only; its result is ignored. -/
def liveTransfer (a : Args) (c : Config) (o : Oracle) (inj : Option Step)
    (st : LiveState) : RunResult :=
  let fileRuns : Bool := !a.dbOnly
  if fileRuns ∧ inj = some .fileTransfer then
    exceptionHandler c (st.steps ++ [.fileTransfer]) st.executed 0
  else
    livePermissions a c o inj
      { steps := st.steps ++ (if fileRuns then [Step.fileTransfer] else []),
        executed := st.executed ++
          (if fileRuns then
            (transferFiles c a.direction (effDryRun a c) a.sudoPassword o).2
           else []),
        dbFile := st.dbFile }

/-- Step 2 (lines 1383-1389): the database export, skipped when
files-only; sets the `db_file` local. -/
def liveExport (a : Args) (c : Config) (o : Oracle) (inj : Option Step)
    (st : LiveState) : RunResult :=
  let exportRuns : Bool := !a.filesOnly
  if exportRuns ∧ inj = some .dbExport then
    exceptionHandler c (st.steps ++ [.dbExport]) st.executed 0
  else
    let expRes := if exportRuns then exportDatabase c a.direction (effDryRun a c) o
                  else (none, [])
    liveTransfer a c o inj
      { steps := st.steps ++ (if exportRuns then [Step.dbExport] else []),
        executed := st.executed ++ expRes.2,
        dbFile := expRes.1 }

/-- Step 1 (lines 1378-1380): enable maintenance mode. -/
def liveMaintOn (a : Args) (c : Config) (o : Oracle) (inj : Option Step)
    (st : LiveState) : RunResult :=
  if inj = some .maintOn then
    exceptionHandler c (st.steps ++ [.maintOn]) st.executed 0
  else
    liveExport a c o inj
      { steps := st.steps ++ [Step.maintOn],
        executed := st.executed ++ maintActivateCmds c (effDryRun a c),
        dbFile := st.dbFile }

/-- The live/dry-run branch of `run_synchronization` (lines 1364-1488),
starting with the pre-sync backup check (lines 1366-1376); a `False` from
`handle_existing_backup` aborts the run before maintenance is enabled.
`inj` injects an exception at one step call site: if that site is
reached, its invocation raises and control passes to the handler. -/
def runLive (a : Args) (c : Config) (o : Oracle) (inj : Option Step) : RunResult :=
  let preRuns : Bool := !a.noBackup && !(effDryRun a c)
  if preRuns ∧ inj = some .backupPreflight then
    exceptionHandler c [.backupPreflight] [] 0
  else
    let preRes := if preRuns then handleExistingBackup a c o else (true, [])
    let steps0 : List Step := if preRuns then [.backupPreflight] else []
    if !preRes.1 then
      { ok := false, steps := steps0, executed := preRes.2, plan := [],
        maintOffCalls := 0 }
    else liveMaintOn a c o inj { steps := steps0, executed := preRes.2, dbFile := none }

/-- `run_synchronization`.  In `--command-only` mode the branch only
collects records; if collection raises (an unbound local or a missing
config key), the exception handler performs a live maintenance
deactivation and the run returns `False`. -/
def runSynchronization (a : Args) (c : Config) (o : Oracle) (inj : Option Step) :
    RunResult :=
  if a.commandOnly then
    match collectCommands a c o.ts with
    | .ok entries =>
        { ok := true, steps := [], executed := [], plan := entries, maintOffCalls := 0 }
    | .error _ =>
        { ok := false, steps := [], executed := maintDeactivateCmds c false,
          plan := [], maintOffCalls := 1 }
  else runLive a c o inj

/-! ## Password manager (`resources/password_manager.py`)

One `PasswordManager` instance lives on the `SSHManager` that
`WordPressSync` constructs once per run; `set_permissions`,
`_cleanup_destination_files` and `execute_as_sudo_user` all prompt
through it.  Its `_sudo_password` attribute is the cache; Python
truthiness makes an empty string look like an absent cache. -/

/-- Python truthiness of the `_sudo_password` attribute. -/
def pwTruthy : Option String → Bool
  | some s => s ≠ ""
  | none => false

/-- One call of `PasswordManager.get_sudo_password`: `forcePrompt` is the
keyword argument (never passed as `True` anywhere in the source), and
`promptResult` is what `getpass` returns (`none` models a
`KeyboardInterrupt`/`EOFError`, which leaves the cache unchanged). -/
structure PwCall where
  forcePrompt : Bool
  promptResult : Option String
deriving DecidableEq, Repr

/-- `get_sudo_password`: returns the value handed to the caller, the new
cache, the number of operator prompts (0 or 1) and the number of cache
writes (0 or 1). -/
def getSudoPassword (cache : Option String) (call : PwCall) :
    Option String × Option String × Nat × Nat :=
  if !call.forcePrompt && pwTruthy cache then (cache, cache, 0, 0)
  else
    match call.promptResult with
    | some s => (some s, some s, 1, 1)
    | none => (none, cache, 1, 0)

/-- A sequence of `get_sudo_password` calls through the one shared
manager, threading its cache; returns the final cache, the total number
of operator prompts and the total number of cache writes. -/
def runPwCalls (cache : Option String) : List PwCall → Option String × Nat × Nat
  | [] => (cache, 0, 0)
  | call :: rest =>
      let r := getSudoPassword cache call
      let rec' := runPwCalls r.2.1 rest
      (rec'.1, r.2.2.1 + rec'.2.1, r.2.2.2 + rec'.2.2)

/-! ## Concrete fixtures for counterexamples and witnesses -/

/-- A minimal full-sync configuration (structured backup root, absolute
temp directory, no plugins/ownership/cleanup patterns, database backups
and the rsync backup option disabled, validation section absent). -/
def cfg0 : Config :=
  { localPath := "/var/www/site"
    livePath := "/srv/www/live"
    dbTemp := .plain "/tmp/wp-sync"
    dbFilename := none
    backup := some { directory := some (.perSide (some "/backups/local")
                       (some "/backups/remote")),
                     database := none, enabled := false, archiveFormat := none }
    sshUser := "deploy"
    sshHost := "example.com"
    sshKeyPath := "/home/op/.ssh/id_ed25519"
    sudoUser := none
    ownership := none
    rsyncCleanupFiles := []
    rsyncDryRunCfg := none
    noTrash := false
    domainsStaging := ⟨"http://staging.test", "https://staging.test"⟩
    domainsLive := ⟨"http://example.com", "https://example.com"⟩
    plugins := none
    validation := none }

/-- `cfg0` with a plugins section activating one plugin on the live side. -/
def cfgPlugins : Config :=
  { cfg0 with plugins := some ⟨none, some ⟨some ["woocommerce"], none⟩⟩ }

/-- Arguments of a live (`--no-dry-run`) full push that skips validation
and backups, non-interactively. -/
def liveArgs : Args :=
  { direction := .push, noDryRun := true, skipValidation := true,
    skipWpCheck := true, commandOnly := false, sudoPassword := none,
    noBackup := true, skipFinalCleanup := false, dbOnly := false,
    filesOnly := false, nonInteractive := true }

/-- The same run in `--command-only` mode. -/
def planArgs : Args := { liveArgs with commandOnly := true }

/-- The dry-run variant (default mode). -/
def dryArgs : Args := { liveArgs with noDryRun := false }

/-- A `--command-only --files-only` run against a configuration with a
plugins section (the C10 configuration). -/
def filesOnlyPlanArgs : Args := { planArgs with filesOnly := true }

/-- An oracle where every external command succeeds, every directory
probe reports existing content, and prompts answer their default. -/
def oracle0 : Oracle :=
  { ts := "wordpress-sync-backup_2026-01-01_000000"
    preCheckOk := true, preHasFiles := true, preExistsLocal := true
    keepExisting := true, preArchiveOk := true, preRemoveOk := true
    exportOk := true, exportScpOk := true
    cleanupWritable := true, cleanupSudoAvailable := true
    backupDirExists := true, rsyncOk := true
    nopasswd := true, passwordProvided := true
    chownOk := true, chmodDirsOk := true, chmodFilesOk := true
    importScpOk := true, dbBackupYes := true, dbBackupMkdirOk := true
    dbBackupOk := true, resetOk := true, importOk := true
    validationOk := true, finalCheckOk := true, finalHasFiles := true
    finalExistsLocal := true, finalDelete := false, finalRemoveOk := true
    finalArchiveOk := true, cleanupDbFileExists := true
    cleanupLocalTempExists := true, cleanupLocalTempEmpty := true }

/-- `oracle0` with a failing database export. -/
def oracleExportFail : Oracle := { oracle0 with exportOk := false }

/-- `oracle0` with a failing rsync transfer. -/
def oracleRsyncFail : Oracle := { oracle0 with rsyncOk := false }

/-- A `--command-only --files-only` run that does not skip validation
(the second C10 configuration, no plugins section needed). -/
def filesOnlyValidationPlanArgs : Args :=
  { planArgs with skipValidation := false, filesOnly := true }

/-! ## Deletion accounting (for the backup-lifecycle invariant) -/

/-- Whether a command deletes a file-system path: `rm -rf`,
`rm -f`/`os.remove`, `os.rmdir`, or `find … -delete`. -/
def isDeletionCmd : Cmd → Bool
  | .rmRf _ => true
  | .rmF _ => true
  | .rmdirIfEmpty _ => true
  | .findDelete _ _ => true
  | _ => false

/-- The commands in a trace that delete a file-system path. -/
def deletionCmds (cmds : List Cmd) : List Cmd :=
  cmds.filter isDeletionCmd

/-- Every deletion command a run of the pipeline can execute: the
`latest` backup directory, the temporary database artifacts, and the
configured destination cleanup patterns. -/
def allowedDeletions (a : Args) (c : Config) : List Cmd :=
  [.rmRf (getLatestBackupPath c a.direction),
   .rmF (pathJoin (dbmLocalDbTemp c) (dbFilenameOf c)),
   .rmF (pathJoin (dbmRemoteDbTemp c) (dbFilenameOf c)),
   .rmdirIfEmpty (dbmLocalDbTemp c),
   .rmRf (dbmRemoteDbTemp c)] ++
  c.rsyncCleanupFiles.map (fun pat => .findDelete c.livePath pat) ++
  c.rsyncCleanupFiles.map (fun pat => .findDelete c.localPath pat)

/-- The database dump path the pipeline works with (the `db_file` local
of `run_synchronization`): `None` when the export is skipped or fails. -/
def runDbFile (a : Args) (c : Config) (o : Oracle) : Option String :=
  if a.filesOnly then none
  else (exportDatabase c a.direction (effDryRun a c) o).1

/-- Every command a run with these inputs can execute, grouped by the
step that would issue it (each chunk guarded by that step's
configuration-determined guard).  `runSynchronization_executed_subset`
proves the executed trace is drawn from this pool. -/
def cmdPool (a : Args) (c : Config) (o : Oracle) : List Cmd :=
  let dir := a.direction
  let dry := effDryRun a c
  (if !a.noBackup && !dry then (handleExistingBackup a c o).2 else []) ++
  maintActivateCmds c dry ++
  (if !a.filesOnly then (exportDatabase c dir dry o).2 else []) ++
  (if !a.dbOnly then (transferFiles c dir dry a.sudoPassword o).2 else []) ++
  (if !a.dbOnly && (dir = Direction.push) && !dry then
    (setPermissions c a.sudoPassword o).2 else []) ++
  (if (runDbFile a c o).isSome then
    (importDatabase a c dir ((runDbFile a c o).getD "") dry o).2 ++
    replaceUrlsCmds c dir dry ++ clearCacheCmds c dir dry ++
    managePluginsCmds c dir dry
   else []) ++
  (if !a.skipValidation && !dry then validationCmds c dir a.dbOnly a.filesOnly
   else []) ++
  maintDeactivateCmds c dry ++
  (if !a.noBackup && !a.skipFinalCleanup && !dry then
    (handleFinalBackupCleanup a c o).2 else []) ++
  (if (runDbFile a c o).isSome then
    dbCleanup c ((runDbFile a c o).getD "") dry o else []) ++
  maintDeactivateCmds c false

/-- Whether a command is the `.maintenance`-file creation (the plan's
alternative maintenance method). -/
def isMaintFileCmd : Cmd → Bool
  | .maintFileWrite _ => true
  | _ => false

/-! # Theorems -/

/-! ## General list helpers -/

theorem mem_ite_list {α : Type} (x : α) (p : Prop) [Decidable p] (l l' : List α) :
    (x ∈ if p then l else l') ↔ ((p ∧ x ∈ l) ∨ (¬ p ∧ x ∈ l')) := by
  split <;> simp_all

/-! ## Per-component command characterizations

For every manager trace: it never contains the `.maintenance`-file
command, and its deletion commands are exactly the listed ones. -/

theorem maintActivateCmds_safe (c : Config) (dry : Bool) :
    ∀ x ∈ maintActivateCmds c dry,
      isMaintFileCmd x = false ∧ isDeletionCmd x = false := by
  intro x hx
  unfold maintActivateCmds at hx
  split at hx
  · exact absurd hx (List.not_mem_nil x)
  · fin_cases hx <;> exact ⟨rfl, rfl⟩

theorem maintDeactivateCmds_safe (c : Config) (dry : Bool) :
    ∀ x ∈ maintDeactivateCmds c dry,
      isMaintFileCmd x = false ∧ isDeletionCmd x = false := by
  intro x hx
  unfold maintDeactivateCmds at hx
  split at hx
  · exact absurd hx (List.not_mem_nil x)
  · fin_cases hx <;> exact ⟨rfl, rfl⟩

theorem exportDatabase_safe (c : Config) (dir : Direction) (dry : Bool) (o : Oracle) :
    ∀ x ∈ (exportDatabase c dir dry o).2,
      isMaintFileCmd x = false ∧ isDeletionCmd x = false := by
  intro x hx
  unfold exportDatabase at hx
  cases dir <;> split_ifs at hx <;>
    first
    | exact absurd hx (List.not_mem_nil x)
    | (fin_cases hx <;> exact ⟨rfl, rfl⟩)

theorem backupDatabase_safe (c : Config) (dir : Direction) (o : Oracle) :
    ∀ x ∈ (backupDatabase c dir o).2,
      isMaintFileCmd x = false ∧ isDeletionCmd x = false := by
  intro x hx
  simp only [backupDatabase] at hx
  split_ifs at hx <;>
    simp only [List.mem_cons, List.not_mem_nil, or_false] at hx <;>
    first
    | (obtain rfl := hx; exact ⟨rfl, rfl⟩)
    | (obtain rfl | rfl := hx <;> exact ⟨rfl, rfl⟩)

theorem resetDatabase_safe (a : Args) (c : Config) (dir : Direction) (o : Oracle) :
    ∀ x ∈ (resetDatabase a c dir o).2,
      isMaintFileCmd x = false ∧ isDeletionCmd x = false := by
  intro x hx
  simp only [resetDatabase] at hx
  rcases List.mem_append.mp hx with h | h
  · split_ifs at h
    · exact backupDatabase_safe c dir o x h
    all_goals exact absurd h (List.not_mem_nil x)
  · simp only [List.mem_singleton] at h
    subst h; exact ⟨rfl, rfl⟩

theorem importDatabase_safe (a : Args) (c : Config) (dir : Direction) (f : String)
    (dry : Bool) (o : Oracle) :
    ∀ x ∈ (importDatabase a c dir f dry o).2,
      isMaintFileCmd x = false ∧ isDeletionCmd x = false := by
  intro x hx
  cases dir <;> simp only [importDatabase] at hx <;> split_ifs at hx
  · exact absurd hx (List.not_mem_nil x)
  · simp only [List.mem_cons, List.not_mem_nil, or_false] at hx
    obtain rfl | rfl := hx <;> exact ⟨rfl, rfl⟩
  · simp only [List.mem_append, List.mem_cons, List.mem_singleton,
      List.not_mem_nil, or_false] at hx
    rcases hx with ((rfl | rfl) | h) | rfl
    · exact ⟨rfl, rfl⟩
    · exact ⟨rfl, rfl⟩
    · exact resetDatabase_safe a c .push o x h
    · exact ⟨rfl, rfl⟩
  · exact absurd hx (List.not_mem_nil x)
  · simp only [List.mem_append, List.mem_singleton] at hx
    rcases hx with h | rfl
    · exact resetDatabase_safe a c .pull o x h
    · exact ⟨rfl, rfl⟩

theorem replaceUrlsCmds_safe (c : Config) (dir : Direction) (dry : Bool) :
    ∀ x ∈ replaceUrlsCmds c dir dry,
      isMaintFileCmd x = false ∧ isDeletionCmd x = false := by
  intro x hx
  unfold replaceUrlsCmds at hx
  split_ifs at hx <;>
    first
    | exact absurd hx (List.not_mem_nil x)
    | (fin_cases hx <;> exact ⟨rfl, rfl⟩)

theorem clearCacheCmds_safe (c : Config) (dir : Direction) (dry : Bool) :
    ∀ x ∈ clearCacheCmds c dir dry,
      isMaintFileCmd x = false ∧ isDeletionCmd x = false := by
  intro x hx
  unfold clearCacheCmds at hx
  split_ifs at hx <;>
    first
    | exact absurd hx (List.not_mem_nil x)
    | (fin_cases hx <;> exact ⟨rfl, rfl⟩)

theorem managePluginsCmds_safe (c : Config) (dir : Direction) (dry : Bool) :
    ∀ x ∈ managePluginsCmds c dir dry,
      isMaintFileCmd x = false ∧ isDeletionCmd x = false := by
  intro x hx
  unfold managePluginsCmds at hx
  rcases hp : c.plugins with _ | pl <;> simp only [hp] at hx
  · exact absurd hx (List.not_mem_nil x)
  · split_ifs at hx <;>
      simp only [List.mem_append, List.mem_singleton, List.not_mem_nil,
        or_false, false_or] at hx <;>
      first
      | (obtain rfl := hx; exact ⟨rfl, rfl⟩)
      | (obtain rfl | rfl := hx <;> exact ⟨rfl, rfl⟩)

theorem permissionChain_safe (c : Config) (o : Oracle) :
    ∀ x ∈ (permissionChain c o).2,
      isMaintFileCmd x = false ∧ isDeletionCmd x = false := by
  intro x hx
  unfold permissionChain at hx
  split_ifs at hx <;> (fin_cases hx <;> exact ⟨rfl, rfl⟩)

theorem setPermissions_safe (c : Config) (pw : Option String) (o : Oracle) :
    ∀ x ∈ (setPermissions c pw o).2,
      isMaintFileCmd x = false ∧ isDeletionCmd x = false := by
  intro x hx
  unfold setPermissions at hx
  rcases ho : c.ownership with _ | ow <;> simp only [ho] at hx
  · exact absurd hx (List.not_mem_nil x)
  · split_ifs at hx
    · exact permissionChain_safe c o x hx
    · exact permissionChain_safe c o x hx
    · rcases hpc : permissionChain c o with ⟨ok, cmds⟩
      rw [hpc] at hx
      simp only [List.mem_cons] at hx
      rcases hx with rfl | h
      · exact ⟨rfl, rfl⟩
      · exact permissionChain_safe c o x (by rw [hpc]; exact h)
    · rcases hpc : permissionChain c o with ⟨ok, cmds⟩
      rw [hpc] at hx
      simp only [List.mem_cons] at hx
      rcases hx with rfl | h
      · exact ⟨rfl, rfl⟩
      · exact permissionChain_safe c o x (by rw [hpc]; exact h)
    · simp only [List.mem_singleton] at hx
      subst hx; exact ⟨rfl, rfl⟩

theorem coreFilesValidationCmds_safe (t : String) (r vc : Bool) (cf : List String) :
    ∀ x ∈ coreFilesValidationCmds t r vc cf,
      isMaintFileCmd x = false ∧ isDeletionCmd x = false := by
  intro x hx
  unfold coreFilesValidationCmds at hx
  rcases List.mem_append.mp hx with h | h <;> rw [mem_ite_list] at h <;>
    rcases h with ⟨_, h⟩ | ⟨_, h⟩
  · simp only [List.mem_singleton] at h; subst h; exact ⟨rfl, rfl⟩
  · exact absurd h (List.not_mem_nil x)
  · obtain ⟨f, _, hf⟩ := List.mem_map.mp h
    subst hf; exact ⟨rfl, rfl⟩
  · exact absurd h (List.not_mem_nil x)

theorem dbValidationCmds_safe (t : String) (v : Bool) (ad : List String) :
    ∀ x ∈ dbValidationCmds t v ad,
      isMaintFileCmd x = false ∧ isDeletionCmd x = false := by
  intro x hx
  unfold dbValidationCmds at hx
  split_ifs at hx <;>
    first
    | exact absurd hx (List.not_mem_nil x)
    | (fin_cases hx <;> exact ⟨rfl, rfl⟩)

theorem accessibilityValidationCmds_safe (d : String) (h w : Bool) :
    ∀ x ∈ accessibilityValidationCmds d h w,
      isMaintFileCmd x = false ∧ isDeletionCmd x = false := by
  intro x hx
  unfold accessibilityValidationCmds at hx
  split_ifs at hx <;>
    first
    | exact absurd hx (List.not_mem_nil x)
    | (fin_cases hx <;> exact ⟨rfl, rfl⟩)

theorem validationCmds_safe (c : Config) (dir : Direction) (sf sd : Bool) :
    ∀ x ∈ validationCmds c dir sf sd,
      isMaintFileCmd x = false ∧ isDeletionCmd x = false := by
  intro x hx
  unfold validationCmds at hx
  rcases hv : c.validation with _ | v <;> simp only [hv] at hx
  · rcases List.mem_append.mp hx with h | h
    · rcases List.mem_append.mp h with h | h <;> rw [mem_ite_list] at h <;>
        rcases h with ⟨_, h⟩ | ⟨_, h⟩
      · exact coreFilesValidationCmds_safe _ _ _ _ x h
      · exact absurd h (List.not_mem_nil x)
      · exact dbValidationCmds_safe _ _ _ x h
      · exact absurd h (List.not_mem_nil x)
    · exact accessibilityValidationCmds_safe _ _ _ x h
  · by_cases he : (!v.enabled) = true
    · rw [if_pos he] at hx; exact absurd hx (List.not_mem_nil x)
    · rw [if_neg he] at hx
      rcases List.mem_append.mp hx with h | h
      · rcases List.mem_append.mp h with h | h <;> rw [mem_ite_list] at h <;>
          rcases h with ⟨_, h⟩ | ⟨_, h⟩
        · exact coreFilesValidationCmds_safe _ _ _ _ x h
        · exact absurd h (List.not_mem_nil x)
        · exact dbValidationCmds_safe _ _ _ x h
        · exact absurd h (List.not_mem_nil x)
      · rw [mem_ite_list] at h
        rcases h with ⟨_, h⟩ | ⟨_, h⟩
        · exact accessibilityValidationCmds_safe _ _ _ x h
        · exact absurd h (List.not_mem_nil x)

theorem ensureBackupDirCmds_safe (c : Config) (dir : Direction) (o : Oracle) :
    ∀ x ∈ ensureBackupDirCmds c dir o,
      isMaintFileCmd x = false ∧ isDeletionCmd x = false := by
  intro x hx
  unfold ensureBackupDirCmds at hx
  rcases hraw : sshBackupDirRaw c with _ | som
  · simp [hraw] at hx
  · rcases som with s | d1 <;> simp only [hraw] at hx
    · cases dir <;>
        simp only [List.mem_append, mem_ite_list, List.mem_singleton,
          List.not_mem_nil] at hx <;>
        first
        | (rcases hx with h | (h | h) <;> simp_all [isMaintFileCmd, isDeletionCmd])
        | (rcases hx with h | h <;> simp_all [isMaintFileCmd, isDeletionCmd])
    · simp at hx

/-- The destination pre-sync cleanup deletes only configured patterns at
the destination root, and is `.maintenance`-file free. -/
theorem cleanupDestinationCmds_chr (c : Config) (dir : Direction)
    (pw : Option String) (o : Oracle) :
    ∀ x ∈ cleanupDestinationCmds c dir pw o,
      isMaintFileCmd x = false ∧
      (isDeletionCmd x = true →
        (∃ pat ∈ c.rsyncCleanupFiles,
          x = Cmd.findDelete c.livePath pat ∨ x = Cmd.findDelete c.localPath pat)) := by
  intro x hx
  unfold cleanupDestinationCmds at hx
  rw [mem_ite_list] at hx
  rcases hx with ⟨_, hx⟩ | ⟨h0, hx⟩
  · exact absurd hx (List.not_mem_nil x)
  · cases dir
    · obtain ⟨pat, hpat, hin⟩ := List.mem_flatMap.mp hx
      rcases List.mem_append.mp hin with h | h
      · simp only [List.mem_singleton] at h; subst h
        exact ⟨rfl, fun hd => nomatch hd⟩
      · split_ifs at h
        · simp only [List.mem_singleton] at h; subst h
          exact ⟨rfl, fun _ => ⟨pat, hpat, Or.inl rfl⟩⟩
        · simp only [List.mem_singleton] at h; subst h
          exact ⟨rfl, fun _ => ⟨pat, hpat, Or.inl rfl⟩⟩
        · simp only [List.mem_singleton] at h; subst h
          exact ⟨rfl, fun _ => ⟨pat, hpat, Or.inl rfl⟩⟩
        · rcases List.mem_append.mp h with h | h
          · simp only [List.mem_singleton] at h; subst h
            exact ⟨rfl, fun hd => nomatch hd⟩
          · simp only [List.mem_singleton] at h; subst h
            exact ⟨rfl, fun _ => ⟨pat, hpat, Or.inl rfl⟩⟩
        · rcases List.mem_append.mp h with h | h
          · simp only [List.mem_singleton] at h; subst h
            exact ⟨rfl, fun hd => nomatch hd⟩
          · exact absurd h (List.not_mem_nil x)
    · obtain ⟨pat, hpat, hf⟩ := List.mem_map.mp hx
      subst hf
      exact ⟨rfl, fun _ => ⟨pat, hpat, Or.inr rfl⟩⟩

theorem transferFiles_chr (c : Config) (dir : Direction) (dry : Bool)
    (pw : Option String) (o : Oracle) :
    ∀ x ∈ (transferFiles c dir dry pw o).2,
      isMaintFileCmd x = false ∧
      (isDeletionCmd x = true →
        (∃ pat ∈ c.rsyncCleanupFiles,
          x = Cmd.findDelete c.livePath pat ∨ x = Cmd.findDelete c.localPath pat)) := by
  intro x hx
  unfold transferFiles at hx
  rcases List.mem_append.mp hx with h | h
  · rcases List.mem_append.mp h with h | h
    · rw [mem_ite_list] at h
      rcases h with ⟨_, h⟩ | ⟨_, h⟩
      · exact absurd h (List.not_mem_nil x)
      · exact cleanupDestinationCmds_chr c dir pw o x h
    · rw [mem_ite_list] at h
      rcases h with ⟨_, h⟩ | ⟨_, h⟩
      · have hs := ensureBackupDirCmds_safe c dir o x h
        exact ⟨hs.1, fun hd => absurd hd (by simp [hs.2])⟩
      · exact absurd h (List.not_mem_nil x)
  · simp only [List.mem_singleton] at h; subst h
    exact ⟨rfl, fun hd => nomatch hd⟩

/-- The preflight backup review deletes only the `latest` directory. -/
theorem handleExistingBackup_chr (a : Args) (c : Config) (o : Oracle) :
    ∀ x ∈ (handleExistingBackup a c o).2,
      isMaintFileCmd x = false ∧
      (isDeletionCmd x = true →
        x = Cmd.rmRf (getLatestBackupPath c a.direction)) := by
  intro x hx
  unfold handleExistingBackup at hx
  rw [apply_ite Prod.snd, mem_ite_list] at hx
  rcases hx with ⟨_, hx⟩ | ⟨h0, hx⟩
  · exact absurd hx (List.not_mem_nil x)
  · rcases hd : a.direction with _ | _ <;> simp only [hd] at hx ⊢ <;>
      split_ifs at hx <;>
      simp only [List.mem_append, List.mem_cons, List.mem_singleton,
        List.not_mem_nil, or_false, false_or] at hx <;>
      (try casesm* _ ∨ _) <;> subst_vars <;>
        (refine ⟨rfl, fun hd2 => ?_⟩) <;> (first | rfl | exact Bool.noConfusion hd2)

/-- The post-run backup review deletes only the `latest` directory. -/
theorem handleFinalBackupCleanup_chr (a : Args) (c : Config) (o : Oracle) :
    ∀ x ∈ (handleFinalBackupCleanup a c o).2,
      isMaintFileCmd x = false ∧
      (isDeletionCmd x = true →
        x = Cmd.rmRf (getLatestBackupPath c a.direction)) := by
  intro x hx
  unfold handleFinalBackupCleanup at hx
  rw [apply_ite Prod.snd, mem_ite_list] at hx
  rcases hx with ⟨_, hx⟩ | ⟨h0, hx⟩
  · exact absurd hx (List.not_mem_nil x)
  · rcases hd : a.direction with _ | _ <;> simp only [hd] at hx ⊢ <;>
      split_ifs at hx <;>
      simp only [List.mem_append, List.mem_cons, List.mem_singleton,
        List.not_mem_nil, or_false, false_or] at hx <;>
      (try casesm* _ ∨ _) <;> subst_vars <;>
        (refine ⟨rfl, fun hd2 => ?_⟩) <;> (first | rfl | exact Bool.noConfusion hd2)

/-- The temp-file cleanup deletes only the dump and temp directories. -/
theorem dbCleanup_chr (c : Config) (f : String) (dry : Bool) (o : Oracle) :
    ∀ x ∈ dbCleanup c f dry o,
      isMaintFileCmd x = false ∧
      (isDeletionCmd x = true →
        (x = Cmd.rmF f ∨ x = Cmd.rmdirIfEmpty (dbmLocalDbTemp c) ∨
         x = Cmd.rmF (pathJoin (dbmRemoteDbTemp c) (dbFilenameOf c)) ∨
         x = Cmd.rmRf (dbmRemoteDbTemp c))) := by
  intro x hx
  unfold dbCleanup at hx
  split_ifs at hx <;>
    first
    | exact absurd hx (List.not_mem_nil x)
    | (fin_cases hx <;> simp [isMaintFileCmd, isDeletionCmd])

/-! ## Shared lemmas -/

/-- Once the password cache holds a truthy value, later non-forced calls
neither prompt nor write. -/
theorem runPwCalls_cached (cache : Option String) (hc : pwTruthy cache = true)
    (calls : List PwCall) (h : ∀ cl ∈ calls, cl.forcePrompt = false) :
    (runPwCalls cache calls).2.1 = 0 ∧ (runPwCalls cache calls).2.2 = 0 := by
  induction calls with
  | nil => simp [runPwCalls]
  | cons cl rest ih =>
      have hcl : cl.forcePrompt = false := h cl (by simp)
      have hrest : ∀ x ∈ rest, x.forcePrompt = false := fun x hx => h x (by simp [hx])
      simpa [runPwCalls, getSudoPassword, hcl, hc] using ih hrest

/-! ## The executed-trace pool: every command a run executes is drawn
from the flat guarded pool, which itself contains no `.maintenance`-file
command and only the allowed deletions. -/

set_option maxHeartbeats 2000000 in
theorem runSynchronization_executed_subset (a : Args) (c : Config) (o : Oracle)
    (inj : Option Step) :
    ∀ x ∈ (runSynchronization a c o inj).executed, x ∈ cmdPool a c o := by
  intro x
  cases hco : a.commandOnly
  case true =>
    intro hx
    rcases h : collectCommands a c o.ts with e | entries <;>
      rw [runSynchronization] at hx <;>
      simp only [hco, if_true, h] at hx <;>
      simp_all [cmdPool, List.mem_append]
  case false =>
    cases hfo : a.filesOnly <;>
    · revert x
      simp only [runSynchronization, runLive, liveMaintOn, liveExport,
        liveTransfer, livePermissions, liveImport, liveUrls, liveCache,
        livePlugins, liveValidate, liveMaintOff, liveBackupReview, liveCleanup,
        exceptionHandler, hco, hfo,
        Bool.false_eq_true, if_false, Bool.not_false, Bool.not_true,
        Bool.true_and, Bool.false_and, Bool.and_true, Bool.and_false]
      simp only [apply_ite RunResult.executed, apply_ite Prod.snd,
        apply_ite Prod.fst, apply_ite Option.isSome, mem_ite_list,
        List.mem_append, List.not_mem_nil]
      intro x hx
      simp only [cmdPool, runDbFile, hfo, Bool.false_eq_true, Bool.not_false,
        Bool.not_true, if_false, if_true, Bool.true_and, Bool.false_and,
        mem_ite_list, List.mem_append, List.not_mem_nil]
      itauto

theorem runDbFile_eq (a : Args) (c : Config) (o : Oracle) (f : String)
    (hdry : effDryRun a c = false) (h : runDbFile a c o = some f) :
    f = pathJoin (dbmLocalDbTemp c) (dbFilenameOf c) := by
  unfold runDbFile at h
  split_ifs at h with h0
  rcases hd : a.direction with _ | _ <;> rw [hd] at h <;>
    simp only [exportDatabase, hdry, Bool.false_eq_true, if_false] at h <;>
    first
    | (split_ifs at h <;> simp_all)
    | simp_all

theorem cmdPool_chr (a : Args) (c : Config) (o : Oracle) :
    ∀ x ∈ cmdPool a c o,
      isMaintFileCmd x = false ∧
      (isDeletionCmd x = true → x ∈ allowedDeletions a c) := by
  intro x hx
  unfold cmdPool at hx
  simp only [List.mem_append, mem_ite_list, List.not_mem_nil, and_false,
    or_false] at hx
  rcases hx with (((((((((⟨_, h⟩ | h) | ⟨_, h⟩) | ⟨_, h⟩) | ⟨_, h⟩) |
      ⟨hs, h⟩) | ⟨_, h⟩) | h) | ⟨_, h⟩) | ⟨hs, h⟩) | h
  · have hc := handleExistingBackup_chr a c o x h
    exact ⟨hc.1, fun hd => by simp [allowedDeletions, hc.2 hd]⟩
  · exact ⟨(maintActivateCmds_safe c _ x h).1,
      fun hd => absurd hd (by simp [(maintActivateCmds_safe c _ x h).2])⟩
  · exact ⟨(exportDatabase_safe c _ _ o x h).1,
      fun hd => absurd hd (by simp [(exportDatabase_safe c _ _ o x h).2])⟩
  · have hc := transferFiles_chr c a.direction (effDryRun a c) a.sudoPassword o x h
    refine ⟨hc.1, fun hd => ?_⟩
    obtain ⟨pat, hpat, hor⟩ := hc.2 hd
    simp only [allowedDeletions, List.mem_append, List.mem_cons, List.mem_map,
      List.not_mem_nil, or_false]
    rcases hor with hl | hl
    · exact Or.inl (Or.inr ⟨pat, hpat, hl.symm⟩)
    · exact Or.inr ⟨pat, hpat, hl.symm⟩
  · exact ⟨(setPermissions_safe c _ o x h).1,
      fun hd => absurd hd (by simp [(setPermissions_safe c _ o x h).2])⟩
  · rcases h with ((h | h) | h) | h
    · exact ⟨(importDatabase_safe a c _ _ _ o x h).1,
        fun hd => absurd hd (by simp [(importDatabase_safe a c _ _ _ o x h).2])⟩
    · exact ⟨(replaceUrlsCmds_safe c _ _ x h).1,
        fun hd => absurd hd (by simp [(replaceUrlsCmds_safe c _ _ x h).2])⟩
    · exact ⟨(clearCacheCmds_safe c _ _ x h).1,
        fun hd => absurd hd (by simp [(clearCacheCmds_safe c _ _ x h).2])⟩
    · exact ⟨(managePluginsCmds_safe c _ _ x h).1,
        fun hd => absurd hd (by simp [(managePluginsCmds_safe c _ _ x h).2])⟩
  · exact ⟨(validationCmds_safe c _ _ _ x h).1,
      fun hd => absurd hd (by simp [(validationCmds_safe c _ _ _ x h).2])⟩
  · exact ⟨(maintDeactivateCmds_safe c _ x h).1,
      fun hd => absurd hd (by simp [(maintDeactivateCmds_safe c _ x h).2])⟩
  · have hc := handleFinalBackupCleanup_chr a c o x h
    exact ⟨hc.1, fun hd => by simp [allowedDeletions, hc.2 hd]⟩
  · have hc := dbCleanup_chr c ((runDbFile a c o).getD "") (effDryRun a c) o x h
    refine ⟨hc.1, fun hd => ?_⟩
    rcases hdry : effDryRun a c with _ | _
    · obtain ⟨f, hf⟩ := Option.isSome_iff_exists.mp hs
      have hfe := runDbFile_eq a c o f hdry hf
      rcases hc.2 hd with hl | hl | hl | hl <;>
        simp [allowedDeletions, hl, hf, hfe]
    · rw [hdry] at h
      simp [dbCleanup] at h
  · exact ⟨(maintDeactivateCmds_safe c false x h).1,
      fun hd => absurd hd (by simp [(maintDeactivateCmds_safe c false x h).2])⟩

/-! ## C5 — reset immediately before import, reset failure tolerated -/

/-- **C5** (confirmed).  For every live (non-dry-run) import, for both
directions, the command trace of `import_database` ends with the reset
followed immediately by the import, and the returned result is the
import's outcome alone — a failed reset (`o.resetOk = false`) leaves both
the trace and the result unchanged, i.e. the import still proceeds after
only a warning.  For a push the hypothesis is that the dump transfer to
the remote side succeeded (otherwise `import_database` returns before the
reset). -/
theorem claim_C5_reset_before_import (a : Args) (c : Config) (f : String)
    (o : Oracle) (hscp : o.importScpOk = true) :
    (importDatabase a c .push f false o).2
      = [Cmd.mkdirP (dbmRemoteDbTemp c),
         Cmd.scp .push f (pathJoin (dbmRemoteDbTemp c) (dbFilenameOf c))] ++
        (resetDatabase a c .push o).2 ++
        [Cmd.wpDbImport c.livePath (pathJoin (dbmRemoteDbTemp c) (dbFilenameOf c))] ∧
    (importDatabase a c .pull f false o).2
      = (resetDatabase a c .pull o).2 ++ [Cmd.wpDbImport c.localPath f] ∧
    (∀ dir : Direction,
      (resetDatabase a c dir o).2.getLast?
        = some (Cmd.wpDbReset (if dir = Direction.push then c.livePath
                               else c.localPath))) ∧
    (importDatabase a c .push f false o).1 = o.importOk ∧
    (importDatabase a c .pull f false o).1 = o.importOk := by
  refine ⟨?_, ?_, ?_, ?_, ?_⟩
  · simp [importDatabase, hscp]
  · simp [importDatabase]
  · intro dir
    cases dir <;> simp [resetDatabase, List.getLast?_concat]
  · simp [importDatabase, hscp]
  · simp [importDatabase]

/-- Witness for C5 at a concrete run. -/
theorem claim_C5_reset_before_import_witness :
    (importDatabase liveArgs cfg0 .push "/tmp/wp-sync/wordpress-sync-database.sql"
        false oracle0).2
      = [Cmd.mkdirP (dbmRemoteDbTemp cfg0),
         Cmd.scp .push "/tmp/wp-sync/wordpress-sync-database.sql"
           (pathJoin (dbmRemoteDbTemp cfg0) (dbFilenameOf cfg0))] ++
        (resetDatabase liveArgs cfg0 .push oracle0).2 ++
        [Cmd.wpDbImport cfg0.livePath
          (pathJoin (dbmRemoteDbTemp cfg0) (dbFilenameOf cfg0))] ∧
    (importDatabase liveArgs cfg0 .pull "/tmp/wp-sync/wordpress-sync-database.sql"
        false oracle0).2
      = (resetDatabase liveArgs cfg0 .pull oracle0).2 ++
        [Cmd.wpDbImport cfg0.localPath "/tmp/wp-sync/wordpress-sync-database.sql"] ∧
    (∀ dir : Direction,
      (resetDatabase liveArgs cfg0 dir oracle0).2.getLast?
        = some (Cmd.wpDbReset (if dir = Direction.push then cfg0.livePath
                               else cfg0.localPath))) ∧
    (importDatabase liveArgs cfg0 .push "/tmp/wp-sync/wordpress-sync-database.sql"
        false oracle0).1 = oracle0.importOk ∧
    (importDatabase liveArgs cfg0 .pull "/tmp/wp-sync/wordpress-sync-database.sql"
        false oracle0).1 = oracle0.importOk :=
  claim_C5_reset_before_import liveArgs cfg0
    "/tmp/wp-sync/wordpress-sync-database.sql" oracle0 (by decide)

/-! ## C6 — backup root resolution -/

/-- **C6** (confirmed).  With a legacy single-string backup directory `D`
the resolution yields `latest = resolve(D)` and `archives =
parent(resolve(D))`; with a structured per-direction root `R` it yields
`latest = resolve(R)/latest` and `archives = resolve(R)/archives`; and
the resolution rule itself sends a parent-relative directory to the
parent of the relevant environment's root and any other relative
directory to that root directly (`claimResolve`/`claimBase` are written
from the spec's words; the left-hand sides are the source functions). -/
theorem claim_C6_backup_root_resolution (c : Config) (dir : Direction) :
    (∀ D : String, D ≠ "" →
      getLatestBackupPath (withBackupDir c (.plain D)) dir
        = claimResolve D (claimBase c dir) ∧
      getArchivesPath (withBackupDir c (.plain D)) dir
        = dirname (claimResolve D (claimBase c dir))) ∧
    (∀ R : String,
      getLatestBackupPath (withBackupDir c (.perSide (some R) (some R))) dir
        = pathJoin (claimResolve R (claimBase c dir)) "latest" ∧
      getArchivesPath (withBackupDir c (.perSide (some R) (some R))) dir
        = pathJoin (claimResolve R (claimBase c dir)) "archives") ∧
    (∀ d base : String, isAbs d = false → strStartsWith d "../" = true →
      claimResolve d base = pathJoin (dirname (rstripSlash base)) (strDrop d 3)) ∧
    (∀ d base : String, isAbs d = false → strStartsWith d "../" = false →
      claimResolve d base = pathJoin (rstripSlash base) d) := by
  refine ⟨?_, ?_, ?_, ?_⟩
  · intro D hD
    cases dir <;>
      simp [getLatestBackupPath, getArchivesPath, isNewBackupFormat, withBackupDir,
        resolveBackupRoot, backupDirectoryRaw, claimResolve, claimBase, hD]
  · intro R
    cases dir <;>
      simp [getLatestBackupPath, getArchivesPath, isNewBackupFormat, withBackupDir,
        resolveBackupRoot, backupDirectoryRaw, claimResolve, claimBase]
  · intro d base h1 h2
    simp [claimResolve, h1, h2]
  · intro d base h1 h2
    simp [claimResolve, h1, h2]

/-- Witness for C6 at concrete directories. -/
theorem claim_C6_backup_root_resolution_witness :
    getLatestBackupPath (withBackupDir cfg0 (.plain "../bk")) .push
      = claimResolve "../bk" (claimBase cfg0 .push) ∧
    getArchivesPath
        (withBackupDir cfg0 (.perSide (some "/backups/root") (some "/backups/root")))
        .push
      = pathJoin (claimResolve "/backups/root" (claimBase cfg0 .push)) "archives" :=
  ⟨((claim_C6_backup_root_resolution cfg0 .push).1 "../bk" (by decide)).1,
   ((claim_C6_backup_root_resolution cfg0 .push).2.1 "/backups/root").2⟩

/-! ## C9 — shared sudo-password cache -/

/-- **C9 counterexample**.  The claim says the operator is never prompted
more than once in a single run.  But a cancelled first prompt
(`KeyboardInterrupt`/`EOFError`, modelled by `promptResult = none`)
leaves the cache unwritten, so a later escalation path prompts again:
two prompts in one run.  Both call sites are reachable in one live push
(destination cleanup needing sudo, then `set_permissions`). -/
theorem claim_C9_counterexample :
    (runPwCalls none [⟨false, none⟩, ⟨false, some "hunter2"⟩]).2.1 = 2 := by decide

/-- **C9** (amended).  All escalation paths read the one shared
`PasswordManager`; provided every prompt in the run yields a nonempty
secret, the cache is written at most once and the operator is prompted at
most once, over any sequence of `get_sudo_password` calls.  (The
unamended claim fails when a prompt is cancelled or returns an empty
string: the cache stays unwritten and a later path prompts again.) -/
theorem claim_C9_shared_secret_cache (calls : List PwCall)
    (h : ∀ cl ∈ calls, cl.forcePrompt = false ∧
          ∃ s, cl.promptResult = some s ∧ s ≠ "") :
    (runPwCalls none calls).2.1 ≤ 1 ∧ (runPwCalls none calls).2.2 ≤ 1 := by
  cases calls with
  | nil => simp [runPwCalls]
  | cons cl rest =>
      obtain ⟨hf, s, hps, hs⟩ := h cl (by simp)
      have hrest : ∀ x ∈ rest, x.forcePrompt = false :=
        fun x hx => (h x (by simp [hx])).1
      have hcache : pwTruthy (some s) = true := by simp [pwTruthy, hs]
      have hr := runPwCalls_cached (some s) hcache rest hrest
      simp [runPwCalls, getSudoPassword, hf, hps, pwTruthy, hr.1, hr.2]

/-- Witness for C9 (amended): two successful call sites, one prompt. -/
theorem claim_C9_shared_secret_cache_witness :
    (runPwCalls none [⟨false, some "pw"⟩, ⟨false, some "pw"⟩]).2.1 ≤ 1 ∧
    (runPwCalls none [⟨false, some "pw"⟩, ⟨false, some "pw"⟩]).2.2 ≤ 1 :=
  claim_C9_shared_secret_cache [⟨false, some "pw"⟩, ⟨false, some "pw"⟩]
    (by
      intro cl hcl
      simp only [List.mem_cons, List.not_mem_nil, or_false] at hcl
      rcases hcl with h | h <;>
        exact ⟨by rw [h], "pw", by rw [h], by decide⟩)

/-! ## C10 — unbound `target_path` in the plan renderer -/

/-- **C10** (confirmed).  For a `--command-only --files-only` run the URL
block that assigns `target_path`/`is_remote` is skipped; with a plugins
section that activates a plugin on the target environment (first
configuration), or with validation not skipped (second configuration),
the plan renderer reads the unassigned locals and raises
`UnboundLocalError` instead of producing the command list. -/
theorem claim_C10_unbound_target_path :
    collectCommands filesOnlyPlanArgs cfgPlugins oracle0.ts
      = .error
        "UnboundLocalError: local variable target_path referenced before assignment" ∧
    collectCommands filesOnlyValidationPlanArgs cfg0 oracle0.ts
      = .error
        "UnboundLocalError: local variable target_path referenced before assignment" :=
  ⟨rfl, rfl⟩

/-! ## C1 — maintenance deactivation on exceptions -/

/-- **C1 counterexample**.  The claim demands that for an exception at
*any* pipeline step, `MaintenanceOff` is invoked exactly once.  For an
exception injected at the cleanup step (which runs *after* the normal
step-10 deactivation), the handler deactivates a second time: two
invocations, not one. -/
theorem claim_C1_counterexample :
    Step.cleanup ∈ (runSynchronization liveArgs cfg0 oracle0 (some .cleanup)).steps ∧
    (runSynchronization liveArgs cfg0 oracle0 (some .cleanup)).maintOffCalls = 2 ∧
    (runSynchronization liveArgs cfg0 oracle0 (some .cleanup)).ok = false := by
  decide

/-! ## C2 — plan/live mirror -/

/-- **C2 counterexample**.  The plan is not a 1:1 order-preserving mirror
of the live mutating operations: it contains the alternative
`.maintenance`-file creation command, which the live run never executes
(and which is a mutating command), so the plan's mutating-command
sequence differs from the live one already in membership. -/
theorem claim_C2_counterexample :
    Cmd.maintFileWrite "/var/www/site/.maintenance"
      ∈ ((collectCommands planArgs cfg0 oracle0.ts).toOption.getD []).map
          (fun e => e.cmd) ∧
    isMutating (Cmd.maintFileWrite "/var/www/site/.maintenance") = true ∧
    Cmd.maintFileWrite "/var/www/site/.maintenance"
      ∉ (runSynchronization liveArgs cfg0 oracle0 none).executed ∧
    List.filter isMutating
        (((collectCommands planArgs cfg0 oracle0.ts).toOption.getD []).map
          (fun e => e.cmd))
      ≠ (runSynchronization liveArgs cfg0 oracle0 none).executed.filter isMutating := by
  decide

/-! ## C3 — export/transfer failure handling -/

/-- **C3 counterexample**.  When the database export fails, the run skips
the database-dependent steps but still returns success (`True`), against
the claim that it "does not report overall success"; and when the file
transfer fails, its ignored result aborts nothing — the database import
step still runs. -/
theorem claim_C3_counterexample :
    (exportDatabase cfg0 .push false oracleExportFail).1 = none ∧
    (runSynchronization liveArgs cfg0 oracleExportFail none).ok = true ∧
    (transferFiles cfg0 .push false none oracleRsyncFail).1 = false ∧
    Step.fileTransfer ∈ (runSynchronization liveArgs cfg0 oracleRsyncFail none).steps ∧
    Step.dbImport ∈ (runSynchronization liveArgs cfg0 oracleRsyncFail none).steps ∧
    (runSynchronization liveArgs cfg0 oracleRsyncFail none).ok = true := by
  decide

/-! ## C4 — dry-run and plan-only frame -/

/-- **C4 counterexample**.  A `--command-only` run is claimed to perform
"no execution of any kind, including no maintenance toggling".  But when
plan rendering raises (the unbound `target_path` of C10), the exception
handler performs a *live* maintenance deactivation: two mutating
maintenance commands execute in plan-only mode. -/
theorem claim_C4_counterexample :
    (runSynchronization filesOnlyPlanArgs cfgPlugins oracle0 none).executed
      = [Cmd.wpMaintDeactivate "/var/www/site",
         Cmd.wpMaintDeactivate "/srv/www/live"] ∧
    isMutating (Cmd.wpMaintDeactivate "/var/www/site") = true ∧
    (runSynchronization filesOnlyPlanArgs cfgPlugins oracle0 none).maintOffCalls = 1 := by
  decide

/-! ## C8 — backup lifecycle deletions -/

/-- **C8 counterexample**.  The `latest` backup directory is not the only
path automated cleanup deletes: the step-12 temp-file cleanup removes the
exported database dump, whose path differs from `latest`. -/
theorem claim_C8_counterexample :
    Cmd.rmF "/tmp/wp-sync/wordpress-sync-database.sql"
      ∈ deletionCmds (runSynchronization liveArgs cfg0 oracle0 none).executed ∧
    "/tmp/wp-sync/wordpress-sync-database.sql" ≠ getLatestBackupPath cfg0 .push := by
  decide


/-- **C8** (amended).  Every deletion a run executes (any configuration,
any oracle, any injected exception) is one of the allowed targets: the
`latest` backup directory, the temporary database artifacts, or the
configured pre-sync cleanup patterns; and within the two backup reviews
themselves the `latest` directory is the only path ever deleted (the
`archives` tree is only written to by the archiving move). -/
theorem claim_C8_deletion_policy (a : Args) (c : Config) (o : Oracle)
    (inj : Option Step) :
    (∀ x ∈ deletionCmds (runSynchronization a c o inj).executed,
       x ∈ allowedDeletions a c) ∧
    (∀ x ∈ (handleExistingBackup a c o).2 ++ (handleFinalBackupCleanup a c o).2,
       isDeletionCmd x = true → x = Cmd.rmRf (getLatestBackupPath c a.direction)) := by
  constructor
  · intro x hx
    rw [deletionCmds, List.mem_filter] at hx
    exact (cmdPool_chr a c o x
      (runSynchronization_executed_subset a c o inj x hx.1)).2 hx.2
  · intro x hx hd
    rcases List.mem_append.mp hx with h | h
    · exact (handleExistingBackup_chr a c o x h).2 hd
    · exact (handleFinalBackupCleanup_chr a c o x h).2 hd

/-- Witness for C8 (amended) at concrete runs: the dump deletion of the
reference run is an allowed target, and the preflight review's deletion
(interactive remove, backups enabled) targets exactly `latest`. -/
theorem claim_C8_deletion_policy_witness :
    Cmd.rmF "/tmp/wp-sync/wordpress-sync-database.sql"
      ∈ allowedDeletions liveArgs cfg0 ∧
    Cmd.rmRf (getLatestBackupPath cfg0 .push)
      = Cmd.rmRf (getLatestBackupPath cfg0
          ({ liveArgs with noBackup := false, nonInteractive := false } : Args).direction) :=
  ⟨(claim_C8_deletion_policy liveArgs cfg0 oracle0 none).1
      (Cmd.rmF "/tmp/wp-sync/wordpress-sync-database.sql") (by decide),
   (claim_C8_deletion_policy
      { liveArgs with noBackup := false, nonInteractive := false } cfg0
      { oracle0 with keepExisting := false } none).2
      (Cmd.rmRf (getLatestBackupPath cfg0 .push)) (by decide) (by decide)⟩

/-- **C2** (amended).  The plan is not a 1:1 order-preserving mirror of
the live mutating trace: whenever plan collection succeeds, the plan
lists the alternative `.maintenance`-file creation (a mutating command),
while no run — any configuration, oracle or injected exception — ever
executes a `.maintenance`-file write. -/
theorem claim_C2_plan_live_divergence (a : Args) (c : Config) (o : Oracle)
    (inj : Option Step) (entries : List PlanEntry) (p : String)
    (hok : collectCommands a c o.ts = .ok entries) :
    Cmd.maintFileWrite (pathJoin c.localPath ".maintenance")
      ∈ entries.map (fun e => e.cmd) ∧
    isMutating (Cmd.maintFileWrite (pathJoin c.localPath ".maintenance")) = true ∧
    Cmd.maintFileWrite p ∉ (runSynchronization a c o inj).executed := by
  refine ⟨?_, rfl, ?_⟩
  · simp only [collectCommands, bind, Except.bind] at hok
    rcases h6 : planFileTransfer a c with e6 | s6 <;> rw [h6] at hok
    · exact absurd hok (by simp)
    · rcases h8 : planPluginSection a c with e8 | s8 <;> rw [h8] at hok
      · exact absurd hok (by simp)
      · rcases h9 : planValidationSection a c with e9 | s9 <;> rw [h9] at hok
        · exact absurd hok (by simp)
        · simp only [pure, Except.pure, Except.ok.injEq] at hok
          subst hok
          refine List.mem_map.mpr
            ⟨⟨"Maintenance Mode",
              .maintFileWrite (pathJoin c.localPath ".maintenance"), .localHost,
              some "Local User"⟩, ?_, rfl⟩
          simp [planMaintenance, List.mem_append]
  · intro hmem
    exact Bool.noConfusion
      ((cmdPool_chr a c o _ (runSynchronization_executed_subset a c o inj _ hmem)).1)

/-- Witness for C2 (amended) at the reference plan configuration. -/
theorem claim_C2_plan_live_divergence_witness :
    Cmd.maintFileWrite (pathJoin cfg0.localPath ".maintenance")
      ∈ ((collectCommands planArgs cfg0 oracle0.ts).toOption.getD []).map
          (fun e => e.cmd) ∧
    Cmd.maintFileWrite "/var/www/site/.maintenance"
      ∉ (runSynchronization planArgs cfg0 oracle0 none).executed :=
  ⟨(claim_C2_plan_live_divergence planArgs cfg0 oracle0 none
      ((collectCommands planArgs cfg0 oracle0.ts).toOption.getD [])
      "/var/www/site/.maintenance" rfl).1,
   (claim_C2_plan_live_divergence planArgs cfg0 oracle0 none
      ((collectCommands planArgs cfg0 oracle0.ts).toOption.getD [])
      "/var/www/site/.maintenance" rfl).2.2⟩

theorem managePluginsCmds_dry (c : Config) (dir : Direction) :
    managePluginsCmds c dir true = [] := by
  rcases hp : c.plugins with _ | pl <;> simp [managePluginsCmds, hp]

/-- **C7** (confirmed).  A db-only run never invokes the file-transfer or
permission steps; a files-only run never invokes the export, import,
URL-rewrite, cache-clear or plugin steps — under any oracle and any
injected exception, in both live and command-only mode. -/
theorem claim_C7_sync_kind_skips (a : Args) (c : Config) (o : Oracle)
    (inj : Option Step) :
    (a.dbOnly = true →
      Step.fileTransfer ∉ (runSynchronization a c o inj).steps ∧
      Step.setPermissions ∉ (runSynchronization a c o inj).steps) ∧
    (a.filesOnly = true →
      Step.dbExport ∉ (runSynchronization a c o inj).steps ∧
      Step.dbImport ∉ (runSynchronization a c o inj).steps ∧
      Step.urlRewrite ∉ (runSynchronization a c o inj).steps ∧
      Step.cacheClear ∉ (runSynchronization a c o inj).steps ∧
      Step.pluginManage ∉ (runSynchronization a c o inj).steps) := by
  constructor
  · intro hdb
    cases hco : a.commandOnly
    · simp only [runSynchronization, runLive, liveMaintOn, liveExport,
        liveTransfer, livePermissions, liveImport, liveUrls, liveCache,
        livePlugins, liveValidate, liveMaintOff, liveBackupReview, liveCleanup,
        exceptionHandler, hco, hdb,
        Bool.false_eq_true, if_false, Bool.not_false, Bool.not_true,
        Bool.true_and, Bool.false_and, Bool.and_true, Bool.and_false]
      simp only [apply_ite RunResult.steps, apply_ite Prod.snd,
        apply_ite Prod.fst, apply_ite Option.isSome, mem_ite_list,
        List.mem_append, List.not_mem_nil, List.mem_singleton, List.mem_cons]
      constructor <;> simp
    · rcases h : collectCommands a c o.ts with e | entries <;>
        simp [runSynchronization, hco, h]
  · intro hfo
    cases hco : a.commandOnly
    · simp only [runSynchronization, runLive, liveMaintOn, liveExport,
        liveTransfer, livePermissions, liveImport, liveUrls, liveCache,
        livePlugins, liveValidate, liveMaintOff, liveBackupReview, liveCleanup,
        exceptionHandler, hco, hfo,
        Bool.false_eq_true, if_false, Bool.not_false, Bool.not_true,
        Bool.true_and, Bool.false_and, Bool.and_true, Bool.and_false]
      simp only [apply_ite RunResult.steps, apply_ite Prod.snd,
        apply_ite Prod.fst, apply_ite Option.isSome, mem_ite_list,
        List.mem_append, List.not_mem_nil, List.mem_singleton, List.mem_cons]
      refine ⟨?_, ?_, ?_, ?_, ?_⟩ <;> simp
    · rcases h : collectCommands a c o.ts with e | entries <;>
        simp [runSynchronization, hco, h]

/-- Witness for C7 at two concrete runs (a db-only live push and a
files-only live push). -/
theorem claim_C7_sync_kind_skips_witness :
    Step.fileTransfer
      ∉ (runSynchronization { liveArgs with dbOnly := true } cfg0 oracle0 none).steps ∧
    Step.dbExport
      ∉ (runSynchronization { liveArgs with filesOnly := true } cfg0 oracle0 none).steps :=
  ⟨((claim_C7_sync_kind_skips { liveArgs with dbOnly := true } cfg0 oracle0 none).1
      rfl).1,
   ((claim_C7_sync_kind_skips { liveArgs with filesOnly := true } cfg0 oracle0 none).2
      rfl).1⟩

/-- **C4** (amended).  A dry run executes no mutating command (the only
executed command is the `--dry-run` rsync probe); a `--command-only` run
whose plan collection succeeds executes nothing and toggles no
maintenance.  (The unamended claim fails when plan rendering raises: the
handler then executes a live maintenance deactivation, see the
counterexample.) -/
theorem claim_C4_mode_frames (a : Args) (c : Config) (o : Oracle)
    (entries : List PlanEntry) :
    (a.commandOnly = false → effDryRun a c = true →
      List.filter isMutating (runSynchronization a c o none).executed = []) ∧
    (a.commandOnly = true → collectCommands a c o.ts = .ok entries →
      (runSynchronization a c o none).executed = [] ∧
      (runSynchronization a c o none).plan = entries ∧
      (runSynchronization a c o none).maintOffCalls = 0) := by
  constructor
  · intro hco hdry
    cases hd : a.direction <;> cases hfo : a.filesOnly <;>
      simp [runSynchronization, runLive, liveMaintOn, liveExport, liveTransfer,
        livePermissions, liveImport, liveUrls, liveCache, livePlugins,
        liveValidate, liveMaintOff, liveBackupReview, liveCleanup,
        exceptionHandler, hco, hdry, hd, hfo,
        maintActivateCmds, maintDeactivateCmds, exportDatabase, importDatabase,
        transferFiles, replaceUrlsCmds, clearCacheCmds, managePluginsCmds_dry,
        dbCleanup, isMutating]
  · intro hco hok
    simp [runSynchronization, hco, hok]

/-- Witness for C4 at the dry-run and plan fixtures. -/
theorem claim_C4_mode_frames_witness :
    List.filter isMutating (runSynchronization dryArgs cfg0 oracle0 none).executed
      = [] ∧
    (runSynchronization planArgs cfg0 oracle0 none).executed = [] ∧
    (runSynchronization planArgs cfg0 oracle0 none).maintOffCalls = 0 :=
  ⟨(claim_C4_mode_frames dryArgs cfg0 oracle0 []).1 rfl (by decide),
   ((claim_C4_mode_frames planArgs cfg0 oracle0
      ((collectCommands planArgs cfg0 oracle0.ts).toOption.getD [])).2 rfl rfl).1,
   ((claim_C4_mode_frames planArgs cfg0 oracle0
      ((collectCommands planArgs cfg0 oracle0.ts).toOption.getD [])).2 rfl rfl).2.2⟩

set_option maxHeartbeats 4000000 in
/-- **C1** (amended).  For an exception injected at any reached pipeline
step of a live run, the run returns failure, and maintenance deactivation
is invoked exactly once for steps before the normal step-10 deactivation
— but twice (the step-10 call plus the handler's call) when the failing
step is the deactivation itself, the backup review or the cleanup.  (The
unamended claim's "exactly once" fails for those three steps, see the
counterexample.) -/
theorem claim_C1_exception_deactivation (a : Args) (c : Config) (o : Oracle)
    (s : Step) (hco : a.commandOnly = false)
    (hs : s ∈ (runSynchronization a c o (some s)).steps) :
    (runSynchronization a c o (some s)).ok = false ∧
    (runSynchronization a c o (some s)).maintOffCalls
      = (if s = Step.maintOff ∨ s = Step.backupReview ∨ s = Step.cleanup
         then 2 else 1) := by
  cases s <;>
    simp only [runSynchronization, runLive, liveMaintOn, liveExport,
      liveTransfer, livePermissions, liveImport, liveUrls, liveCache,
      livePlugins, liveValidate, liveMaintOff, liveBackupReview, liveCleanup,
      exceptionHandler, hco,
      Bool.false_eq_true, if_false, Bool.not_false, Bool.not_true,
      Bool.true_and, Bool.false_and, Bool.and_true, Bool.and_false,
      Option.some.injEq, reduceCtorEq, and_false, and_true, false_and,
      true_and, if_true, if_false, not_false_iff] at hs ⊢ <;>
    simp only [apply_ite RunResult.steps, apply_ite RunResult.ok,
      apply_ite RunResult.maintOffCalls, apply_ite Prod.snd, apply_ite Prod.fst,
      apply_ite Option.isSome, mem_ite_list, List.mem_append, List.not_mem_nil,
      List.mem_singleton, List.mem_cons, reduceCtorEq, Option.some.injEq,
      and_false, false_and, and_true, true_and, or_false, false_or,
      not_false_iff, not_true] at hs ⊢ <;>
    split_ifs at hs ⊢ <;>
    first
    | (simp_all; done)
    | ((rcases hs with h | h <;> simp_all); done)
    | ((rcases hs with h | h | h <;> simp_all); done)
    | ((rcases hs with h | h | h | h <;> simp_all); done)
    | ((rcases hs with h | h | h | h | h <;> simp_all); done)
    | itauto


/-- Witness for C1 (amended): the exception at the cleanup step of the
reference run yields failure and two deactivations. -/
theorem claim_C1_exception_deactivation_witness :
    (runSynchronization liveArgs cfg0 oracle0 (some .cleanup)).ok = false ∧
    (runSynchronization liveArgs cfg0 oracle0 (some .cleanup)).maintOffCalls
      = (if Step.cleanup = Step.maintOff ∨ Step.cleanup = Step.backupReview ∨
            Step.cleanup = Step.cleanup then 2 else 1) :=
  claim_C1_exception_deactivation liveArgs cfg0 oracle0 .cleanup rfl (by decide)

/-- **C3** (amended).  A failed database export does skip every
database-dependent step (import, URL rewrite, cache clear, plugin
management, temp cleanup) — but the run still returns success rather
than failure; and a failed file transfer aborts nothing at all: the
entire run result is independent of the transfer's outcome. -/
theorem claim_C3_failure_handling (a : Args) (c : Config) (o : Oracle) (b : Bool) :
    (a.commandOnly = false → a.filesOnly = false → effDryRun a c = false →
     o.exportOk = false →
      Step.dbImport ∉ (runSynchronization a c o none).steps ∧
      Step.urlRewrite ∉ (runSynchronization a c o none).steps ∧
      Step.cacheClear ∉ (runSynchronization a c o none).steps ∧
      Step.pluginManage ∉ (runSynchronization a c o none).steps ∧
      Step.cleanup ∉ (runSynchronization a c o none).steps) ∧
    runSynchronization a c { o with rsyncOk := b } none
      = runSynchronization a c o none ∧
    (runSynchronization liveArgs cfg0 oracleExportFail none).ok = true := by
  refine ⟨?_, rfl, by decide⟩
  intro hco hfo hdry hexp
  have hdb : (exportDatabase c a.direction false o).1 = none := by
    cases hdir : a.direction <;> simp [exportDatabase, hexp]
  simp only [runSynchronization, runLive, liveMaintOn, liveExport,
    liveTransfer, livePermissions, liveImport, liveUrls, liveCache,
    livePlugins, liveValidate, liveMaintOff, liveBackupReview, liveCleanup,
    exceptionHandler, hco, hfo, hdry, hdb,
    Bool.false_eq_true, if_false, Bool.not_false, Bool.not_true,
    Bool.true_and, Bool.false_and, Bool.and_true, Bool.and_false,
    Option.isSome_none, reduceCtorEq, and_false, false_and, if_true]
  simp only [apply_ite RunResult.steps, apply_ite Prod.snd,
    apply_ite Prod.fst, apply_ite Option.isSome, mem_ite_list,
    List.mem_append, List.not_mem_nil, List.mem_singleton, List.mem_cons]
  refine ⟨?_, ?_, ?_, ?_, ?_⟩ <;> simp [hdb]

/-- Witness for C3 (amended) at the export-failure run. -/
theorem claim_C3_failure_handling_witness :
    Step.dbImport
      ∉ (runSynchronization liveArgs cfg0 oracleExportFail none).steps ∧
    (runSynchronization liveArgs cfg0 oracleExportFail none).ok = true :=
  ⟨((claim_C3_failure_handling liveArgs cfg0 oracleExportFail true).1
      rfl rfl (by decide) (by decide)).1,
   (claim_C3_failure_handling liveArgs cfg0 oracleExportFail true).2.2⟩

end WpSync
